import Mathlib

/-!
Verification development for the Subtitle-Merger-GUI repository.

The repository contains two Python variants of the same pipeline:
`merger.py` (Qt front end) and `mergerV3.py` (tkinter front end).  The core
logic embedded here consists of `analyze_folder`, `merge_subtitles` and the
sequential batch worker (`ProcessingWorker.run` in merger.py,
`SubtitleMergerApp.processing_thread` in mergerV3.py).

Filesystem contents and the behaviour of the external `mkvmerge` process are
modelled as explicit inputs; the Python functions are embedded as pure Lean
functions over those inputs.  Python exceptions are modelled with an explicit
`Except` result so that `try/except` clauses translate to pattern matches, and
`logging`/signal emissions are collected as explicit event traces.
-/

set_option linter.unusedVariables false
set_option linter.unnecessarySeqFocus false

/-! ## Configuration (CONFIG dictionary, identical in both variants) -/

/-- CONFIG['VIDEO_EXTENSIONS'] = ['.mp4', '.mkv'] -/
def videoExtensions : List String := [".mp4", ".mkv"]

/-- CONFIG['SUBTITLE_EXTENSION'] = '.srt' -/
def subtitleExtension : String := ".srt"

/-- CONFIG['MKVMERGE_PATH'] (in Python the invalid escapes \P, \M, \m are kept
literally, so the value contains single backslashes). -/
def mkvmergePath : String := "C:\\Program Files\\MKVToolNix\\mkvmerge.exe"

/-- CONFIG['OUTPUT_SUFFIX'] = '_subbed' -/
def outputSuffixMarker : String := "_subbed"

/-! ## Paths (pathlib.Path model)

A path is its list of parent components plus the final name.  `suffixOf` and
`stemOf` follow CPython's `PurePath.suffix` / `PurePath.stem`: with
`i = name.rfind('.')`, the suffix is `name[i:]` when `0 < i < len(name) - 1`
and `''` otherwise. -/

structure FPath where
  parents : List String
  name : String
deriving DecidableEq, Repr, Inhabited

/-- str(path), rendered with '/' separators. -/
def strFPath (p : FPath) : String := String.intercalate "/" (p.parents ++ [p.name])

/-- Index of the last '.' in a character list (CPython `name.rfind('.')`,
`none` when absent). -/
def lastDotIdx : List Char → Option Nat
  | [] => none
  | c :: cs =>
    match lastDotIdx cs with
    | some i => some (i + 1)
    | none => if c = '.' then some 0 else none

/-- pathlib suffix of a file name. -/
def suffixOf (n : String) : String :=
  match lastDotIdx n.data with
  | some i => if 0 < i ∧ i + 1 < n.data.length then String.mk (n.data.drop i) else ""
  | none => ""

/-- pathlib stem of a file name. -/
def stemOf (n : String) : String :=
  match lastDotIdx n.data with
  | some i => if 0 < i ∧ i + 1 < n.data.length then String.mk (n.data.take i) else n
  | none => n

/-- str.lower(), modelled as per-character ASCII lowering (the configured
extensions are ASCII). -/
def pyLower (s : String) : String := String.mk (s.data.map Char.toLower)

/-- Path.with_stem(st), i.e. with_name(st + suffix). -/
def withStem (p : FPath) (st : String) : FPath := ⟨p.parents, st ++ suffixOf p.name⟩

/-- Path.with_suffix(sfx): the stem with the new suffix appended. -/
def withSfx (p : FPath) (sfx : String) : FPath := ⟨p.parents, stemOf p.name ++ sfx⟩

/-- The output path computed by both batch loops:
`video_file.with_stem(video_file.stem + CONFIG['OUTPUT_SUFFIX']).with_suffix('.mkv')`. -/
def outputPathFor (video : FPath) : FPath :=
  withSfx (withStem video (stemOf video.name ++ outputSuffixMarker)) ".mkv"

/-! ## Directory entries -/

/-- One entry of `folder.iterdir()`: its final name and whether `is_file()`
holds. -/
structure Entry where
  name : String
  isFile : Bool
deriving DecidableEq, Repr, Inhabited

/-- The path of a folder's immediate child. -/
def childPath (folder : FPath) (n : String) : FPath := ⟨folder.parents ++ [folder.name], n⟩

/-! ## Python exceptions and the external process -/

/-- The Python exceptions relevant to the embedded code. -/
inductive PyExn where
  | calledProcessError (returncode : Nat) (stderr : String)
  | fileNotFoundError (msg : String)
  | permissionError (msg : String)
  | otherError (msg : String)
deriving DecidableEq, Repr

/-- Python str(e) on a caught exception, modelled as the carried message. -/
def pyStr : PyExn → String
  | .calledProcessError c st => "Command returned non-zero exit status " ++ toString c ++ ": " ++ st
  | .fileNotFoundError m => m
  | .permissionError m => m
  | .otherError m => m

/-- What the operating system does when the external tool is invoked: the
process runs and exits, the binary is missing, or the invocation fails some
other way. -/
inductive ProcBehavior where
  | exits (code : Nat) (stdout stderr : String)
  | binaryMissing (msg : String)
  | failsWith (msg : String)
deriving DecidableEq, Repr, Inhabited

structure CompletedProcess where
  returncode : Nat
  stdout : String
  stderr : String
deriving DecidableEq, Repr

/-- subprocess.run(cmd, check=True, capture_output=True, ...): raises
CalledProcessError on a nonzero exit status, FileNotFoundError when the binary
is missing, and propagates any other invocation failure. -/
def subprocessRun (cmd : List String) (w : ProcBehavior) : Except PyExn CompletedProcess :=
  match w with
  | .exits code out err =>
      if code = 0 then .ok ⟨code, out, err⟩ else .error (.calledProcessError code err)
  | .binaryMissing m => .error (.fileNotFoundError m)
  | .failsWith m => .error (.otherError m)

/-! ## merge_subtitles (Merge Executor) -/

/-- The command list built by merge_subtitles (identical in both variants):
`cmd = [MKVMERGE_PATH, '-o', str(output_path), str(video_file)]` followed by
`cmd.extend(['--language', '0:eng', str(sub_file)])` for each subtitle. -/
def buildCmd (video : FPath) (subs : List FPath) (output : FPath) : List String :=
  subs.foldl (fun cmd sub => cmd ++ ["--language", "0:eng", strFPath sub])
    [mkvmergePath, "-o", strFPath output, strFPath video]

/-- merger.py's fixed message for a missing binary. -/
def notFoundGuidance : String :=
  "mkvmerge not found. Ensure MKVToolNix is installed and in your system's PATH."

/-- merger.py merge_subtitles: returns (success flag, optional error text);
the three `except` clauses become the three error matches, in order. -/
def mergeSubtitles (video : FPath) (subs : List FPath) (output : FPath) (w : ProcBehavior) :
    Except PyExn (Bool × Option String) :=
  match subprocessRun (buildCmd video subs output) w with
  | .ok _ => .ok (true, none)
  | .error (.calledProcessError code stderr) =>
      .ok (false, some ("mkvmerge error (Code " ++ toString code ++ "): " ++ stderr))
  | .error (.fileNotFoundError _) => .ok (false, some notFoundGuidance)
  | .error e => .ok (false, some ("Unexpected error: " ++ pyStr e))

/-- Python getattr(e, 'stderr', str(e)): only CalledProcessError carries a
stderr attribute among the modelled exceptions. -/
def getattrStderr : PyExn → String
  | .calledProcessError _ st => st
  | e => pyStr e

/-- mergerV3.py merge_subtitles: a single catch-all `except Exception` clause
with `error_msg = getattr(e, 'stderr', str(e))`. -/
def mergeSubtitlesV3 (video : FPath) (subs : List FPath) (output : FPath) (w : ProcBehavior) :
    Except PyExn (Bool × Option String) :=
  match subprocessRun (buildCmd video subs output) w with
  | .ok _ => .ok (true, none)
  | .error e => .ok (false, some (getattrStderr e))

/-! ## analyze_folder (Folder Analyzer) -/

/-- How the folder responds to `Path(folder_path).iterdir()`: either its entry
list, or the exception the enumeration raises. -/
inductive AccessError where
  | notFound (msg : String)
  | permission (msg : String)
deriving DecidableEq, Repr

inductive FolderContents where
  | accessible (entries : List Entry)
  | inaccessible (e : AccessError)
deriving DecidableEq, Repr, Inhabited

def exnOfAccess : AccessError → PyExn
  | .notFound m => .fileNotFoundError m
  | .permission m => .permissionError m

/-- merger.py's warning text for a further video candidate (it names the
already-selected file, `video_file.name`). -/
def warnText (folder : FPath) (vfName : String) : String :=
  "Multiple videos in " ++ folder.name ++ ". Using '" ++ vfName ++ "'."

/-- The iteration body of merger.py analyze_folder, threading the selected
video, the subtitle list and the warning log through the entry list. -/
def scanFolder (folder : FPath) :
    List Entry → Option FPath → List FPath → List String →
    Option FPath × List FPath × List String
  | [], video, subs, warns => (video, subs, warns)
  | e :: rest, video, subs, warns =>
    if e.isFile then
      if videoExtensions.contains (pyLower (suffixOf e.name)) then
        match video with
        | some vf => scanFolder folder rest (some vf) subs (warns ++ [warnText folder vf.name])
        | none => scanFolder folder rest (some (childPath folder e.name)) subs warns
      else if pyLower (suffixOf e.name) == subtitleExtension then
        scanFolder folder rest video (subs ++ [childPath folder e.name]) warns
      else scanFolder folder rest video subs warns
    else scanFolder folder rest video subs warns

/-- merger.py's error log when the folder enumeration raises
FileNotFoundError. -/
def inaccessibleText (folder : FPath) : String :=
  "Could not access folder: " ++ strFPath folder ++ ". It may have been moved or deleted."

/-- merger.py analyze_folder: the `try` body is `scanFolder`; only
FileNotFoundError is caught (returning `None, []`), so any other enumeration
exception propagates.  The third component is the `logging` trace. -/
def analyzeFolder (folder : FPath) (c : FolderContents) :
    Except PyExn (Option FPath × List FPath × List String) :=
  match c with
  | .accessible entries => .ok (scanFolder folder entries none [] [])
  | .inaccessible (.notFound _) => .ok (none, [], [inaccessibleText folder])
  | .inaccessible (.permission m) => .error (.permissionError m)

/-- mergerV3.py's warning text for a further video candidate. -/
def warnTextV3 (folder : FPath) : String :=
  "Multiple videos found in " ++ folder.name ++ ", using first found."

/-- The iteration body of mergerV3.py analyze_folder (same control flow as
merger.py's, only the warning text differs). -/
def scanFolderV3 (folder : FPath) :
    List Entry → Option FPath → List FPath → List String →
    Option FPath × List FPath × List String
  | [], video, subs, warns => (video, subs, warns)
  | e :: rest, video, subs, warns =>
    if e.isFile then
      if videoExtensions.contains (pyLower (suffixOf e.name)) then
        match video with
        | some vf => scanFolderV3 folder rest (some vf) subs (warns ++ [warnTextV3 folder])
        | none => scanFolderV3 folder rest (some (childPath folder e.name)) subs warns
      else if pyLower (suffixOf e.name) == subtitleExtension then
        scanFolderV3 folder rest video (subs ++ [childPath folder e.name]) warns
      else scanFolderV3 folder rest video subs warns
    else scanFolderV3 folder rest video subs warns

/-- mergerV3.py analyze_folder: a catch-all `except Exception` clause logs and
falls through to returning the accumulated (empty) result, so it never
raises. -/
def analyzeFolderV3 (folder : FPath) (c : FolderContents) :
    Option FPath × List FPath × List String :=
  match c with
  | .accessible entries => scanFolderV3 folder entries none [] []
  | .inaccessible e =>
      (none, [], ["Could not analyze folder " ++ strFPath folder ++ ": " ++ pyStr (exnOfAccess e)])

/-! ## Batch worker (Batch Orchestrator) -/

/-- The signals emitted by the worker, in emission order. -/
inductive Event where
  | progress (current total : Nat) (name : String)
  | logMsg (msg : String)
  | summary (succeeded total : Nat)
  | finished
deriving DecidableEq, Repr

/-- One submitted folder together with what the filesystem and the external
tool would do for it. -/
structure FolderSpec where
  path : FPath
  contents : FolderContents
  proc : ProcBehavior
deriving DecidableEq, Repr, Inhabited

def analyzingText (idx total : Nat) (p : FPath) : String :=
  "\n--- [" ++ toString idx ++ "/" ++ toString total ++ "] Analyzing: " ++ strFPath p ++ " ---"

def noVideoText : String := "⚠️ WARNING: No video file found."

def noSubsText : String := "⚠️ WARNING: No subtitle files (.srt) found."

def videoText (v : FPath) : String := "Video: " ++ v.name

def subsCountText (k : Nat) : String := "Subtitles: " ++ toString k ++ " file(s) found."

def successText (output : FPath) : String := "✅ SUCCESS: Created '" ++ output.name ++ "'"

def failText (err : Option String) : String :=
  "❌ ERROR: Failed to merge. " ++ err.getD "Unknown reason."

/-- One iteration of merger.py ProcessingWorker.run: the events it emits, the
executor commands it issues, and either the folder's success flag or the
exception that escapes the iteration. -/
def folderStep (idx total : Nat) (f : FolderSpec) :
    List Event × List (List String) × Except PyExn Bool :=
  let evts0 : List Event :=
    [.progress idx total f.path.name, .logMsg (analyzingText idx total f.path)]
  match analyzeFolder f.path f.contents with
  | .error e => (evts0, [], .error e)
  | .ok (none, _, _) => (evts0 ++ [.logMsg noVideoText], [], .ok false)
  | .ok (some _, [], _) => (evts0 ++ [.logMsg noSubsText], [], .ok false)
  | .ok (some video, s :: ss, _) =>
    let subs := s :: ss
    let evts1 := evts0 ++ [.logMsg (videoText video), .logMsg (subsCountText subs.length)]
    let output := outputPathFor video
    match mergeSubtitles video subs output f.proc with
    | .error e => (evts1, [buildCmd video subs output], .error e)
    | .ok (true, _) =>
        (evts1 ++ [.logMsg (successText output)], [buildCmd video subs output], .ok true)
    | .ok (false, err) =>
        (evts1 ++ [.logMsg (failText err)], [buildCmd video subs output], .ok false)

/-- The outcome of one run of merger.py ProcessingWorker.run: the events
emitted so far, the executor commands issued, and the final success count (or
the exception that aborted the loop). -/
structure RunOut where
  events : List Event
  calls : List (List String)
  result : Except PyExn Nat
deriving Repr

/-- The worker loop of merger.py, with `total` fixed up front, the 1-based
index, the success counter and the emitted traces threaded through. -/
def workerGo (total : Nat) : Nat → Nat → List Event → List (List String) → List FolderSpec → RunOut
  | _, succ, acc, calls, [] => ⟨acc ++ [.summary succ total, .finished], calls, .ok succ⟩
  | idx, succ, acc, calls, f :: rest =>
    match folderStep idx total f with
    | (evts, cs, .error e) => ⟨acc ++ evts, calls ++ cs, .error e⟩
    | (evts, cs, .ok ok) =>
        workerGo total (idx + 1) (if ok then succ + 1 else succ) (acc ++ evts) (calls ++ cs) rest

/-- merger.py ProcessingWorker.run. -/
def runWorker (folders : List FolderSpec) : RunOut :=
  workerGo folders.length 1 0 [] [] folders

/-! ## mergerV3.py processing_thread -/

def analyzingTextV3 (p : FPath) : String := "\n--- Analyzing: " ++ strFPath p ++ " ---"

/-- mergerV3.py's combined skip message (the source file stores the emoji
marker as these literal characters). -/
def skipTextV3 : String := "‚ö†Ô∏è WARNING: No video or subtitles found."

def successTextV3 (output : FPath) : String :=
  "‚úÖ SUCCESS: Created '" ++ output.name ++ "'"

def failTextV3 (err : Option String) : String :=
  "‚ùå ERROR: " ++ (match err with | some e => e | none => "None")

/-- One iteration of mergerV3.py processing_thread: the skip test is the
combined `if not video or not subs`.  (mergeSubtitlesV3 never returns
`.error`, so that branch is unreachable.) -/
def folderStepV3 (idx total : Nat) (f : FolderSpec) :
    List Event × List (List String) × Bool :=
  let evts0 : List Event := [.progress idx total f.path.name, .logMsg (analyzingTextV3 f.path)]
  match analyzeFolderV3 f.path f.contents with
  | (some video, s :: ss, _) =>
    let subs := s :: ss
    let output := outputPathFor video
    match mergeSubtitlesV3 video subs output f.proc with
    | .ok (true, _) =>
        (evts0 ++ [.logMsg (successTextV3 output)], [buildCmd video subs output], true)
    | .ok (false, err) =>
        (evts0 ++ [.logMsg (failTextV3 err)], [buildCmd video subs output], false)
    | .error _ => (evts0, [buildCmd video subs output], false)
  | (_, _, _) => (evts0 ++ [.logMsg skipTextV3], [], false)

/-- The loop of mergerV3.py processing_thread (total, since every exception is
caught inside analyze/merge). -/
def threadGo (total : Nat) : Nat → Nat → List Event → List (List String) → List FolderSpec →
    List Event × List (List String) × Nat
  | _, succ, acc, calls, [] => (acc ++ [.summary succ total], calls, succ)
  | idx, succ, acc, calls, f :: rest =>
    match folderStepV3 idx total f with
    | (evts, cs, ok) =>
        threadGo total (idx + 1) (if ok then succ + 1 else succ) (acc ++ evts) (calls ++ cs) rest

/-- mergerV3.py SubtitleMergerApp.processing_thread. -/
def runThreadV3 (folders : List FolderSpec) : List Event × List (List String) × Nat :=
  threadGo folders.length 1 0 [] [] folders

/-! ## Derived helpers used by the statements -/

/-- The entry classification used by the video branch of analyze_folder. -/
def isVideoEntry (e : Entry) : Bool :=
  e.isFile && videoExtensions.contains (pyLower (suffixOf e.name))

/-- Classification as a subtitle by extension alone. -/
def isSubtitleEntry (e : Entry) : Bool :=
  e.isFile && (pyLower (suffixOf e.name) == subtitleExtension)

/-- The per-folder success/crash outcome (independent of the loop index). -/
def folderFlag (f : FolderSpec) : Except PyExn Bool := (folderStep 1 1 f).2.2

def folderSucceeds (f : FolderSpec) : Bool :=
  match folderFlag f with
  | .ok true => true
  | _ => false

def folderCrashes (f : FolderSpec) : Bool :=
  match folderFlag f with
  | .error _ => true
  | _ => false

/-- The per-folder event segments of a merger.py run, folder by folder. -/
def segsOf (total : Nat) : Nat → List FolderSpec → List (List Event)
  | _, [] => []
  | idx, f :: rest => (folderStep idx total f).1 :: segsOf total (idx + 1) rest

/-- The per-folder success flag of mergerV3's loop (independent of the loop
indices). -/
def folderSucceedsV3 (f : FolderSpec) : Bool := (folderStepV3 1 1 f).2.2

/-- The per-folder event segments of a mergerV3 run, folder by folder. -/
def segsOfV3 (total : Nat) : Nat → List FolderSpec → List (List Event)
  | _, [] => []
  | idx, f :: rest => (folderStepV3 idx total f).1 :: segsOfV3 total (idx + 1) rest

/-- Event classifier for counting summary events in a trace. -/
def isSummaryEvent : Event → Bool
  | .summary _ _ => true
  | _ => false

/-- Substring test: does `needle` start `hay`? -/
def leadsWith : List Char → List Char → Bool
  | [], _ => true
  | _ :: _, [] => false
  | a :: as, b :: bs => a == b && leadsWith as bs

/-- Substring test: does `needle` occur contiguously in the list? -/
def hasSegment (needle : List Char) : List Char → Bool
  | [] => needle.isEmpty
  | c :: cs => leadsWith needle (c :: cs) || hasSegment needle cs

/-- `strContainsSub hay needle`: `needle` occurs as a substring of `hay`. -/
def strContainsSub (hay needle : String) : Bool := hasSegment needle.data hay.data

/-! ## Shared lemmas: last-dot structure and path names -/

theorem lastDotIdx_eq_none_iff (l : List Char) : lastDotIdx l = none ↔ '.' ∉ l := by
  induction l with
  | nil => simp [lastDotIdx]
  | cons c cs ih =>
    simp only [lastDotIdx]
    cases h : lastDotIdx cs with
    | some i =>
      simp only [List.mem_cons]
      constructor
      · intro hv; cases hv
      · intro hv
        exact absurd (ih.mpr (fun hm => hv (Or.inr hm))) (by simp [h])
    | none =>
      by_cases hc : c = '.'
      · simp [hc]
      · simp [hc, List.mem_cons, ih.mp h]
        intro h2
        exact hc h2.symm

theorem lastDotIdx_append_some {ys : List Char} {j : Nat} (h : lastDotIdx ys = some j) :
    ∀ xs : List Char, lastDotIdx (xs ++ ys) = some (xs.length + j) := by
  intro xs
  induction xs with
  | nil => simpa using h
  | cons c cs ih =>
    simp only [List.cons_append, lastDotIdx, List.length_cons]
    rw [show lastDotIdx (cs.append ys) = some (cs.length + j) from ih]
    show some (cs.length + j + 1) = some (cs.length + 1 + j)
    congr 1
    omega

theorem lastDotIdx_append_none {ys : List Char} (h : lastDotIdx ys = none) :
    ∀ xs : List Char, lastDotIdx (xs ++ ys) = lastDotIdx xs := by
  intro xs
  induction xs with
  | nil => simpa using h
  | cons c cs ih =>
    simp only [List.cons_append, lastDotIdx]
    rw [show lastDotIdx (cs.append ys) = lastDotIdx cs from ih]

theorem lastDotIdx_drop {l : List Char} {i : Nat} (h : lastDotIdx l = some i) :
    ∃ rest, l.drop i = '.' :: rest ∧ '.' ∉ rest := by
  induction l generalizing i with
  | nil => simp [lastDotIdx] at h
  | cons c cs ih =>
    simp only [lastDotIdx] at h
    cases hcs : lastDotIdx cs with
    | some j =>
      rw [hcs] at h
      obtain rfl : j + 1 = i := by simpa using h
      obtain ⟨rest, hr, hnr⟩ := ih hcs
      exact ⟨rest, by simpa using hr, hnr⟩
    | none =>
      rw [hcs] at h
      by_cases hc : c = '.'
      · simp only [hc, if_pos rfl] at h
        obtain rfl : (0 : Nat) = i := by simpa using h
        exact ⟨cs, by simp [hc], (lastDotIdx_eq_none_iff cs).mp hcs⟩
      · simp [hc] at h

/-- Evaluation of `suffixOf` in the branch where the last dot is interior. -/
theorem suffixOf_eq_drop {n : String} {i : Nat} (hd : lastDotIdx n.data = some i)
    (hc1 : 0 < i) (hc2 : i + 1 < n.data.length) :
    suffixOf n = String.mk (n.data.drop i) := by
  unfold suffixOf
  simp only [hd]
  rw [if_pos ⟨hc1, hc2⟩]

/-- Structure of a nonempty pathlib suffix: it is `'.'` followed by a
nonempty, dot-free tail. -/
theorem suffixOf_structure {n : String} (h : suffixOf n ≠ "") :
    ∃ rest, (suffixOf n).data = '.' :: rest ∧ '.' ∉ rest ∧ rest ≠ [] := by
  cases hd : lastDotIdx n.data with
  | none => exact absurd (by unfold suffixOf; rw [hd]) h
  | some i =>
    by_cases hc : 0 < i ∧ i + 1 < n.data.length
    · obtain ⟨hc1, hc2⟩ := hc
      have he : suffixOf n = String.mk (n.data.drop i) := suffixOf_eq_drop hd hc1 hc2
      obtain ⟨rest, hr, hnr⟩ := lastDotIdx_drop hd
      refine ⟨rest, ?_, hnr, ?_⟩
      · rw [he]; exact hr
      · have hlen : (n.data.drop i).length = n.data.length - i := List.length_drop i n.data
        rw [hr] at hlen
        simp only [List.length_cons] at hlen
        intro hre
        rw [hre] at hlen
        simp only [List.length_nil] at hlen
        omega
    · refine absurd ?_ h
      unfold suffixOf
      simp only [hd]
      rw [if_neg hc]

/-- Appending a dotted tail: the pathlib stem of `pre ++ sfx` is `pre` when
`sfx` is a dot followed by a nonempty dot-free tail and `pre` is nonempty. -/
theorem stemOf_append_dotted (pre sfx : String) (hpre : pre.data ≠ [])
    {rest : List Char} (h1 : sfx.data = '.' :: rest) (h2 : '.' ∉ rest) (h3 : rest ≠ []) :
    stemOf (pre ++ sfx) = pre := by
  have hsfx : lastDotIdx sfx.data = some 0 := by
    rw [h1]
    simp [lastDotIdx, (lastDotIdx_eq_none_iff rest).mpr h2]
  have hdot : lastDotIdx (pre ++ sfx).data = some pre.data.length := by
    rw [String.data_append]
    simpa using lastDotIdx_append_some hsfx pre.data
  have hc1 : 0 < pre.data.length := List.length_pos.mpr hpre
  have hc2 : pre.data.length + 1 < (pre ++ sfx).data.length := by
    rw [String.data_append]
    simp only [List.length_append, h1, List.length_cons]
    have : 0 < rest.length := List.length_pos.mpr h3
    omega
  unfold stemOf
  simp only [hdot]
  rw [if_pos ⟨hc1, hc2⟩, String.data_append, List.take_left]

/-- The output-path computation, for any file name whose (case-lowered)
suffix is one of the configured video extensions: the name becomes
`<stem><suffix-marker>.mkv` and the directory is unchanged. -/
theorem outputPathFor_eq (v : FPath)
    (h : videoExtensions.contains (pyLower (suffixOf v.name)) = true) :
    outputPathFor v = ⟨v.parents, stemOf v.name ++ outputSuffixMarker ++ ".mkv"⟩ := by
  have hne : suffixOf v.name ≠ "" := by
    intro he
    rw [he] at h
    have : pyLower "" = "" := rfl
    rw [this] at h
    simp [videoExtensions, List.contains] at h
  obtain ⟨rest, h1, h2, h3⟩ := suffixOf_structure hne
  have hpre : (stemOf v.name ++ outputSuffixMarker).data ≠ [] := by
    rw [String.data_append]
    intro he
    have := congrArg List.length he
    simp [outputSuffixMarker] at this
  show (⟨v.parents, stemOf ((stemOf v.name ++ outputSuffixMarker) ++ suffixOf v.name) ++ ".mkv"⟩
      : FPath) = _
  rw [stemOf_append_dotted (stemOf v.name ++ outputSuffixMarker) (suffixOf v.name) hpre h1 h2 h3]

/-! ## Shared lemmas: command construction -/

theorem foldl_extend (g : FPath → List String) :
    ∀ (subs : List FPath) (init : List String),
      subs.foldl (fun cmd sub => cmd ++ g sub) init = init ++ (subs.map g).flatten := by
  intro subs
  induction subs with
  | nil => intro init; simp
  | cons s ss ih => intro init; simp [List.foldl_cons, ih, List.append_assoc]

/-! ## Shared lemmas: substring occurrence -/

theorem leadsWith_self_append (n ys : List Char) : leadsWith n (n ++ ys) = true := by
  induction n with
  | nil => rfl
  | cons a as ih => simp [leadsWith, ih]

theorem hasSegment_append_left (n : List Char) :
    ∀ pre l, hasSegment n l = true → hasSegment n (pre ++ l) = true := by
  intro pre
  induction pre with
  | nil => intro l h; simpa using h
  | cons c cs ih =>
    intro l h
    simp only [List.cons_append, hasSegment, Bool.or_eq_true]
    exact Or.inr (ih l h)

theorem hasSegment_self_append (n ys : List Char) : hasSegment n (n ++ ys) = true := by
  cases n with
  | nil => cases ys <;> simp [hasSegment, leadsWith]
  | cons a as =>
    simp only [List.cons_append, hasSegment, Bool.or_eq_true]
    exact Or.inl (leadsWith_self_append (a :: as) ys)

/-- A string occurring contiguously inside a concatenation is found by
`strContainsSub`. -/
theorem strContainsSub_of_parts (pre mid post : String) :
    strContainsSub (pre ++ mid ++ post) mid = true := by
  unfold strContainsSub
  have : (pre ++ mid ++ post).data = pre.data ++ (mid.data ++ post.data) := by
    simp [String.data_append]
  rw [this]
  exact hasSegment_append_left mid.data pre.data _ (hasSegment_self_append mid.data post.data)

/-! ## Shared lemmas: folder analysis -/

theorem video_not_subtitle {s : String} (h : videoExtensions.contains s = true) :
    (s == subtitleExtension) = false := by
  simp [videoExtensions, List.contains] at h
  rcases h with h | h <;> subst h <;> decide

/-- Once a video is selected, scanning only extends the subtitle list (in
discovery order) and appends one warning per further video candidate, each
naming the already-selected file. -/
theorem scanFolder_some (folder : FPath) (vf : FPath) :
    ∀ (entries : List Entry) (subs : List FPath) (warns : List String),
      scanFolder folder entries (some vf) subs warns =
        (some vf,
         subs ++ (entries.filter isSubtitleEntry).map (fun e => childPath folder e.name),
         warns ++ (entries.filter isVideoEntry).map (fun _ => warnText folder vf.name)) := by
  intro entries
  induction entries with
  | nil => intro subs warns; simp [scanFolder]
  | cons e rest ih =>
    intro subs warns
    cases hf : e.isFile with
    | false =>
      have hvp : isVideoEntry e = false := by unfold isVideoEntry; rw [hf]; rfl
      have hsp : isSubtitleEntry e = false := by unfold isSubtitleEntry; rw [hf]; rfl
      simp only [scanFolder, hf, Bool.false_eq_true, if_false]
      rw [ih]
      simp [List.filter_cons, hvp, hsp]
    | true =>
      cases hv : videoExtensions.contains (pyLower (suffixOf e.name)) with
      | true =>
        have hs := video_not_subtitle hv
        have hvp : isVideoEntry e = true := by unfold isVideoEntry; rw [hf, hv]; rfl
        have hsp : isSubtitleEntry e = false := by unfold isSubtitleEntry; rw [hf, hs]; rfl
        simp only [scanFolder, hf, hv, if_true]
        rw [ih]
        simp [List.filter_cons, hvp, hsp, List.append_assoc]
      | false =>
        cases hs : (pyLower (suffixOf e.name) == subtitleExtension) with
        | true =>
          have hvp : isVideoEntry e = false := by unfold isVideoEntry; rw [hf, hv]; rfl
          have hsp : isSubtitleEntry e = true := by unfold isSubtitleEntry; rw [hf, hs]; rfl
          simp only [scanFolder, hf, hv, hs, Bool.false_eq_true, if_false, if_true]
          rw [ih]
          simp [List.filter_cons, hvp, hsp, List.append_assoc]
        | false =>
          have hvp : isVideoEntry e = false := by unfold isVideoEntry; rw [hf, hv]; rfl
          have hsp : isSubtitleEntry e = false := by unfold isSubtitleEntry; rw [hf, hs]; rfl
          simp only [scanFolder, hf, hv, hs, Bool.false_eq_true, if_false]
          rw [ih]
          simp [List.filter_cons, hvp, hsp]

/-- Scanning with no video candidate present selects no video, collects the
subtitles in discovery order, and emits no warning. -/
theorem scanFolder_none_no_video (folder : FPath) :
    ∀ (entries : List Entry), entries.filter isVideoEntry = [] →
      ∀ (subs : List FPath) (warns : List String),
        scanFolder folder entries none subs warns =
          (none,
           subs ++ (entries.filter isSubtitleEntry).map (fun e => childPath folder e.name),
           warns) := by
  intro entries
  induction entries with
  | nil => intro _ subs warns; simp [scanFolder]
  | cons e rest ih =>
    intro hfil subs warns
    rw [List.filter_cons] at hfil
    by_cases he : isVideoEntry e = true
    · rw [if_pos he] at hfil; cases hfil
    · rw [if_neg he] at hfil
      have he' : e.isFile = false ∨
          (e.isFile = true ∧ videoExtensions.contains (pyLower (suffixOf e.name)) = false) := by
        cases hf : e.isFile with
        | false => exact Or.inl rfl
        | true =>
          refine Or.inr ⟨rfl, ?_⟩
          cases hv : videoExtensions.contains (pyLower (suffixOf e.name)) with
          | false => rfl
          | true => exact absurd (by unfold isVideoEntry; rw [hf, hv]; rfl) he
      rcases he' with hf | ⟨hf, hv⟩
      · have hsp : isSubtitleEntry e = false := by unfold isSubtitleEntry; rw [hf]; rfl
        simp only [scanFolder, hf, Bool.false_eq_true, if_false]
        rw [ih hfil]
        simp [List.filter_cons, hsp]
      · cases hs : (pyLower (suffixOf e.name) == subtitleExtension) with
        | true =>
          have hsp : isSubtitleEntry e = true := by unfold isSubtitleEntry; rw [hf, hs]; rfl
          simp only [scanFolder, hf, hv, hs, Bool.false_eq_true, if_false, if_true]
          rw [ih hfil]
          simp [List.filter_cons, hsp, List.append_assoc]
        | false =>
          have hsp : isSubtitleEntry e = false := by unfold isSubtitleEntry; rw [hf, hs]; rfl
          simp only [scanFolder, hf, hv, hs, Bool.false_eq_true, if_false]
          rw [ih hfil]
          simp [List.filter_cons, hsp]

/-- Scanning with at least one video candidate: the first candidate in
discovery order is selected, the subtitles are collected in discovery order,
and one warning per later candidate names the selected file. -/
theorem scanFolder_none_video (folder : FPath) :
    ∀ (entries : List Entry) (e0 : Entry) (vrest : List Entry),
      entries.filter isVideoEntry = e0 :: vrest →
      ∀ (subs : List FPath) (warns : List String),
        scanFolder folder entries none subs warns =
          (some (childPath folder e0.name),
           subs ++ (entries.filter isSubtitleEntry).map (fun e => childPath folder e.name),
           warns ++ vrest.map (fun _ => warnText folder e0.name)) := by
  intro entries
  induction entries with
  | nil => intro e0 vrest h; cases h
  | cons e rest ih =>
    intro e0 vrest hfil subs warns
    rw [List.filter_cons] at hfil
    by_cases he : isVideoEntry e = true
    · rw [if_pos he] at hfil
      injection hfil with h1 h2
      subst h1
      obtain ⟨hf, hv⟩ : e.isFile = true ∧
          videoExtensions.contains (pyLower (suffixOf e.name)) = true := by
        have h := he
        unfold isVideoEntry at h
        rwa [Bool.and_eq_true] at h
      have hsp : isSubtitleEntry e = false := by
        unfold isSubtitleEntry; rw [hf, video_not_subtitle hv]; rfl
      simp only [scanFolder, hf, hv, if_true]
      rw [scanFolder_some, ← h2]
      simp [List.filter_cons, hsp, childPath]
    · rw [if_neg he] at hfil
      have he' : e.isFile = false ∨
          (e.isFile = true ∧ videoExtensions.contains (pyLower (suffixOf e.name)) = false) := by
        cases hf : e.isFile with
        | false => exact Or.inl rfl
        | true =>
          refine Or.inr ⟨rfl, ?_⟩
          cases hv : videoExtensions.contains (pyLower (suffixOf e.name)) with
          | false => rfl
          | true => exact absurd (by unfold isVideoEntry; rw [hf, hv]; rfl) he
      rcases he' with hf | ⟨hf, hv⟩
      · have hsp : isSubtitleEntry e = false := by unfold isSubtitleEntry; rw [hf]; rfl
        simp only [scanFolder, hf, Bool.false_eq_true, if_false]
        rw [ih e0 vrest hfil]
        simp [List.filter_cons, hsp]
      · cases hs : (pyLower (suffixOf e.name) == subtitleExtension) with
        | true =>
          have hsp : isSubtitleEntry e = true := by unfold isSubtitleEntry; rw [hf, hs]; rfl
          simp only [scanFolder, hf, hv, hs, Bool.false_eq_true, if_false, if_true]
          rw [ih e0 vrest hfil]
          simp [List.filter_cons, hsp, List.append_assoc]
        | false =>
          have hsp : isSubtitleEntry e = false := by unfold isSubtitleEntry; rw [hf, hs]; rfl
          simp only [scanFolder, hf, hv, hs, Bool.false_eq_true, if_false]
          rw [ih e0 vrest hfil]
          simp [List.filter_cons, hsp]

/-- mergerV3.py scan, once a video is selected. -/
theorem scanFolderV3_some (folder : FPath) (vf : FPath) :
    ∀ (entries : List Entry) (subs : List FPath) (warns : List String),
      scanFolderV3 folder entries (some vf) subs warns =
        (some vf,
         subs ++ (entries.filter isSubtitleEntry).map (fun e => childPath folder e.name),
         warns ++ (entries.filter isVideoEntry).map (fun _ => warnTextV3 folder)) := by
  intro entries
  induction entries with
  | nil => intro subs warns; simp [scanFolderV3]
  | cons e rest ih =>
    intro subs warns
    cases hf : e.isFile with
    | false =>
      have hvp : isVideoEntry e = false := by unfold isVideoEntry; rw [hf]; rfl
      have hsp : isSubtitleEntry e = false := by unfold isSubtitleEntry; rw [hf]; rfl
      simp only [scanFolderV3, hf, Bool.false_eq_true, if_false]
      rw [ih]
      simp [List.filter_cons, hvp, hsp]
    | true =>
      cases hv : videoExtensions.contains (pyLower (suffixOf e.name)) with
      | true =>
        have hs := video_not_subtitle hv
        have hvp : isVideoEntry e = true := by unfold isVideoEntry; rw [hf, hv]; rfl
        have hsp : isSubtitleEntry e = false := by unfold isSubtitleEntry; rw [hf, hs]; rfl
        simp only [scanFolderV3, hf, hv, if_true]
        rw [ih]
        simp [List.filter_cons, hvp, hsp, List.append_assoc]
      | false =>
        cases hs : (pyLower (suffixOf e.name) == subtitleExtension) with
        | true =>
          have hvp : isVideoEntry e = false := by unfold isVideoEntry; rw [hf, hv]; rfl
          have hsp : isSubtitleEntry e = true := by unfold isSubtitleEntry; rw [hf, hs]; rfl
          simp only [scanFolderV3, hf, hv, hs, Bool.false_eq_true, if_false, if_true]
          rw [ih]
          simp [List.filter_cons, hvp, hsp, List.append_assoc]
        | false =>
          have hvp : isVideoEntry e = false := by unfold isVideoEntry; rw [hf, hv]; rfl
          have hsp : isSubtitleEntry e = false := by unfold isSubtitleEntry; rw [hf, hs]; rfl
          simp only [scanFolderV3, hf, hv, hs, Bool.false_eq_true, if_false]
          rw [ih]
          simp [List.filter_cons, hvp, hsp]

/-- mergerV3.py scan with at least one video candidate: first wins, and each
later candidate adds the fixed V3 warning. -/
theorem scanFolderV3_none_video (folder : FPath) :
    ∀ (entries : List Entry) (e0 : Entry) (vrest : List Entry),
      entries.filter isVideoEntry = e0 :: vrest →
      ∀ (subs : List FPath) (warns : List String),
        scanFolderV3 folder entries none subs warns =
          (some (childPath folder e0.name),
           subs ++ (entries.filter isSubtitleEntry).map (fun e => childPath folder e.name),
           warns ++ vrest.map (fun _ => warnTextV3 folder)) := by
  intro entries
  induction entries with
  | nil => intro e0 vrest h; cases h
  | cons e rest ih =>
    intro e0 vrest hfil subs warns
    rw [List.filter_cons] at hfil
    by_cases he : isVideoEntry e = true
    · rw [if_pos he] at hfil
      injection hfil with h1 h2
      subst h1
      obtain ⟨hf, hv⟩ : e.isFile = true ∧
          videoExtensions.contains (pyLower (suffixOf e.name)) = true := by
        have h := he
        unfold isVideoEntry at h
        rwa [Bool.and_eq_true] at h
      have hsp : isSubtitleEntry e = false := by
        unfold isSubtitleEntry; rw [hf, video_not_subtitle hv]; rfl
      simp only [scanFolderV3, hf, hv, if_true]
      rw [scanFolderV3_some, ← h2]
      simp [List.filter_cons, hsp, childPath]
    · rw [if_neg he] at hfil
      have he' : e.isFile = false ∨
          (e.isFile = true ∧ videoExtensions.contains (pyLower (suffixOf e.name)) = false) := by
        cases hf : e.isFile with
        | false => exact Or.inl rfl
        | true =>
          refine Or.inr ⟨rfl, ?_⟩
          cases hv : videoExtensions.contains (pyLower (suffixOf e.name)) with
          | false => rfl
          | true => exact absurd (by unfold isVideoEntry; rw [hf, hv]; rfl) he
      rcases he' with hf | ⟨hf, hv⟩
      · have hsp : isSubtitleEntry e = false := by unfold isSubtitleEntry; rw [hf]; rfl
        simp only [scanFolderV3, hf, Bool.false_eq_true, if_false]
        rw [ih e0 vrest hfil]
        simp [List.filter_cons, hsp]
      · cases hs : (pyLower (suffixOf e.name) == subtitleExtension) with
        | true =>
          have hsp : isSubtitleEntry e = true := by unfold isSubtitleEntry; rw [hf, hs]; rfl
          simp only [scanFolderV3, hf, hv, hs, Bool.false_eq_true, if_false, if_true]
          rw [ih e0 vrest hfil]
          simp [List.filter_cons, hsp, List.append_assoc]
        | false =>
          have hsp : isSubtitleEntry e = false := by unfold isSubtitleEntry; rw [hf, hs]; rfl
          simp only [scanFolderV3, hf, hv, hs, Bool.false_eq_true, if_false]
          rw [ih e0 vrest hfil]
          simp [List.filter_cons, hsp]

/-- The selected video name never sits in the subtitle list: its extension is
a video extension, a subtitle's is `.srt`. -/
theorem video_name_not_in_subs (folder : FPath) (entries : List Entry) {nm : String}
    (hv : videoExtensions.contains (pyLower (suffixOf nm)) = true) :
    childPath folder nm ∉
      (entries.filter isSubtitleEntry).map (fun e => childPath folder e.name) := by
  intro hmem
  obtain ⟨e, hef, hee⟩ := List.mem_map.mp hmem
  have hname : e.name = nm := by
    have := congrArg FPath.name hee
    simpa [childPath] using this
  have hsub : isSubtitleEntry e = true := (List.mem_filter.mp hef).2
  unfold isSubtitleEntry at hsub
  rw [Bool.and_eq_true] at hsub
  rw [hname] at hsub
  rw [video_not_subtitle hv] at hsub
  exact Bool.false_ne_true hsub.2

/-! ## Shared lemmas: the merger.py worker loop -/

/-- The per-folder flag does not depend on the loop indices. -/
theorem folderStep_flag (idx total : Nat) (f : FolderSpec) :
    (folderStep idx total f).2.2 = folderFlag f := by
  unfold folderFlag
  cases ha : analyzeFolder f.path f.contents with
  | error e => simp [folderStep, ha]
  | ok r =>
    obtain ⟨v, subs, ws⟩ := r
    cases v with
    | none => simp [folderStep, ha]
    | some video =>
      cases subs with
      | nil => simp [folderStep, ha]
      | cons s ss =>
        cases hm : mergeSubtitles video (s :: ss) (outputPathFor video) f.proc with
        | error e => simp [folderStep, ha, hm]
        | ok r2 =>
          obtain ⟨b, err⟩ := r2
          cases b <;> simp [folderStep, ha, hm]

/-- No iteration of the worker loop emits a summary event. -/
theorem folderStep_no_summary (idx total : Nat) (f : FolderSpec) (s t : Nat) :
    Event.summary s t ∉ (folderStep idx total f).1 := by
  cases ha : analyzeFolder f.path f.contents with
  | error e => simp [folderStep, ha]
  | ok r =>
    obtain ⟨v, subs, ws⟩ := r
    cases v with
    | none => simp [folderStep, ha]
    | some video =>
      cases subs with
      | nil => simp [folderStep, ha]
      | cons s2 ss =>
        cases hm : mergeSubtitles video (s2 :: ss) (outputPathFor video) f.proc with
        | error e => simp [folderStep, ha, hm]
        | ok r2 =>
          obtain ⟨b, err⟩ := r2
          cases b <;> simp [folderStep, ha, hm]

/-- When no folder crashes the loop, the run is the concatenation of the
per-folder segments followed by exactly the final summary and finished
events, and the success count is the number of succeeding folders. -/
theorem workerGo_ok (total : Nat) :
    ∀ (folders : List FolderSpec) (idx succ : Nat) (acc : List Event)
      (calls : List (List String)),
      (∀ f ∈ folders, folderCrashes f = false) →
      (workerGo total idx succ acc calls folders).events =
          acc ++ (segsOf total idx folders).flatten ++
            [.summary (succ + folders.countP folderSucceeds) total, .finished] ∧
      (workerGo total idx succ acc calls folders).result =
          .ok (succ + folders.countP folderSucceeds) := by
  intro folders
  induction folders with
  | nil =>
    intro idx succ acc calls h
    exact ⟨by simp [workerGo, segsOf], by simp [workerGo]⟩
  | cons f rest ih =>
    intro idx succ acc calls h
    have hcf : folderCrashes f = false := h f (List.mem_cons_self f rest)
    have hrest : ∀ g ∈ rest, folderCrashes g = false :=
      fun g hg => h g (List.mem_cons_of_mem f hg)
    rcases hfs : folderStep idx total f with ⟨evts, cs, flag⟩
    have hflag : flag = folderFlag f := by
      have h2 := folderStep_flag idx total f
      rw [hfs] at h2
      exact h2
    obtain ⟨b, hb⟩ : ∃ b, flag = .ok b := by
      cases hfl : folderFlag f with
      | error e =>
        exfalso
        unfold folderCrashes at hcf
        rw [hfl] at hcf
        cases hcf
      | ok b => exact ⟨b, by rw [hflag, hfl]⟩
    subst hb
    have hsf : folderSucceeds f = b := by
      unfold folderSucceeds
      rw [← hflag]
      cases b <;> rfl
    have hcnt : succ + (f :: rest).countP folderSucceeds =
        (if b then succ + 1 else succ) + rest.countP folderSucceeds := by
      rw [List.countP_cons, hsf]
      cases b <;> simp <;> omega
    obtain ⟨ihE, ihR⟩ := ih (idx + 1) (if b then succ + 1 else succ)
      (acc ++ evts) (calls ++ cs) hrest
    constructor
    · simp only [workerGo, hfs]
      rw [ihE, hcnt]
      simp [segsOf, hfs, List.append_assoc]
    · simp only [workerGo, hfs]
      rw [ihR, hcnt]

/-- Any summary event in the run's event trace is the final one: the run
completed, the reported total is the loop's total, and the reported count is
the number of succeeding folders. -/
theorem workerGo_summary_mem (total : Nat) :
    ∀ (folders : List FolderSpec) (idx succ : Nat) (acc : List Event)
      (calls : List (List String)) (s t : Nat),
      Event.summary s t ∈ (workerGo total idx succ acc calls folders).events →
      Event.summary s t ∈ acc ∨
        ((workerGo total idx succ acc calls folders).result = .ok s ∧ t = total ∧
         s = succ + folders.countP folderSucceeds) := by
  intro folders
  induction folders with
  | nil =>
    intro idx succ acc calls s t hmem
    simp only [workerGo] at hmem ⊢
    rw [List.mem_append] at hmem
    rcases hmem with h | h
    · exact Or.inl h
    · simp only [List.mem_cons, List.not_mem_nil, or_false] at h
      rcases h with h | h
      · obtain ⟨rfl, rfl⟩ : s = succ ∧ t = total := by
          constructor <;> injection h
        exact Or.inr ⟨rfl, rfl, by simp⟩
      · cases h
  | cons f rest ih =>
    intro idx succ acc calls s t hmem
    rcases hfs : folderStep idx total f with ⟨evts, cs, flag⟩
    have hns : Event.summary s t ∉ evts := by
      have h2 := folderStep_no_summary idx total f s t
      rw [hfs] at h2
      exact h2
    cases flag with
    | error e =>
      simp only [workerGo, hfs] at hmem ⊢
      rw [List.mem_append] at hmem
      rcases hmem with h | h
      · exact Or.inl h
      · exact absurd h hns
    | ok b =>
      simp only [workerGo, hfs] at hmem ⊢
      have hrec := ih (idx + 1) (if b then succ + 1 else succ)
        (acc ++ evts) (calls ++ cs) s t hmem
      rcases hrec with h | ⟨hr, ht, hs⟩
      · rw [List.mem_append] at h
        rcases h with h | h
        · exact Or.inl h
        · exact absurd h hns
      · refine Or.inr ⟨hr, ht, ?_⟩
        rw [hs]
        have hflag : folderFlag f = .ok b := by
          have h2 := folderStep_flag idx total f
          rw [hfs] at h2
          exact h2.symm
        have hsf : folderSucceeds f = b := by
          unfold folderSucceeds
          rw [hflag]
          cases b <;> rfl
        rw [List.countP_cons, hsf]
        cases b <;> simp <;> omega

theorem segsOf_length (total : Nat) :
    ∀ (folders : List FolderSpec) (idx : Nat),
      (segsOf total idx folders).length = folders.length := by
  intro folders
  induction folders with
  | nil => intro idx; rfl
  | cons f rest ih => intro idx; simp [segsOf, ih]

theorem segsOf_getD (total : Nat) :
    ∀ (folders : List FolderSpec) (idx i : Nat), i < folders.length →
      (segsOf total idx folders).getD i [] =
        (folderStep (idx + i) total (folders.getD i default)).1 := by
  intro folders
  induction folders with
  | nil => intro idx i h; cases h
  | cons f rest ih =>
    intro idx i h
    cases i with
    | zero => simp [segsOf]
    | succ j =>
      have hj : j < rest.length := by simpa using h
      have heq : idx + 1 + j = idx + (j + 1) := by omega
      simp only [segsOf, List.getD_cons_succ]
      rw [ih (idx + 1) j hj, heq]

/-- Shape of one non-crashing iteration's event segment: the progress event,
the analyzing log, optionally the two info logs, and exactly one terminal
log (no-video skip, no-subtitles skip, success, or failure). -/
theorem folderStep_shape (idx total : Nat) (f : FolderSpec)
    (h : folderCrashes f = false) :
    ∃ mid term,
      (folderStep idx total f).1 =
        .progress idx total f.path.name :: .logMsg (analyzingText idx total f.path) ::
          (mid ++ [term]) ∧
      (mid = [] ∨ ∃ v k, mid = [.logMsg (videoText v), .logMsg (subsCountText k)]) ∧
      (term = .logMsg noVideoText ∨ term = .logMsg noSubsText ∨
       (∃ out, term = .logMsg (successText out)) ∨
       (∃ e, term = .logMsg (failText e))) := by
  have hflag : ∀ e, folderFlag f ≠ .error e := by
    intro e he
    unfold folderCrashes at h
    rw [he] at h
    cases h
  cases ha : analyzeFolder f.path f.contents with
  | error e =>
    exfalso
    exact hflag e (by unfold folderFlag; simp [folderStep, ha])
  | ok r =>
    obtain ⟨v, subs, ws⟩ := r
    cases v with
    | none =>
      exact ⟨[], .logMsg noVideoText, by simp [folderStep, ha], Or.inl rfl, Or.inl rfl⟩
    | some video =>
      cases subs with
      | nil =>
        exact ⟨[], .logMsg noSubsText, by simp [folderStep, ha], Or.inl rfl,
          Or.inr (Or.inl rfl)⟩
      | cons s2 ss =>
        cases hm : mergeSubtitles video (s2 :: ss) (outputPathFor video) f.proc with
        | error e =>
          exfalso
          exact hflag e (by unfold folderFlag; simp [folderStep, ha, hm])
        | ok r2 =>
          obtain ⟨b, err⟩ := r2
          cases b with
          | true =>
            exact ⟨[.logMsg (videoText video), .logMsg (subsCountText (s2 :: ss).length)],
              .logMsg (successText (outputPathFor video)),
              by simp [folderStep, ha, hm],
              Or.inr ⟨video, (s2 :: ss).length, rfl⟩,
              Or.inr (Or.inr (Or.inl ⟨outputPathFor video, rfl⟩))⟩
          | false =>
            exact ⟨[.logMsg (videoText video), .logMsg (subsCountText (s2 :: ss).length)],
              .logMsg (failText err),
              by simp [folderStep, ha, hm],
              Or.inr ⟨video, (s2 :: ss).length, rfl⟩,
              Or.inr (Or.inr (Or.inr ⟨err, rfl⟩))⟩

/-- A needle occurring contiguously in the hay's character data is found. -/
theorem strContainsSub_of_data {hay needle : String} (pre post : List Char)
    (h : hay.data = pre ++ (needle.data ++ post)) : strContainsSub hay needle = true := by
  unfold strContainsSub
  rw [h]
  exact hasSegment_append_left needle.data pre _ (hasSegment_self_append needle.data post)

/-! ## Shared lemmas: the mergerV3 thread loop -/

/-- mergerV3's merge never returns an exception: its single catch-all clause
converts every failure. -/
theorem mergeSubtitlesV3_total (video : FPath) (subs : List FPath) (output : FPath)
    (w : ProcBehavior) : ∃ r, mergeSubtitlesV3 video subs output w = .ok r := by
  cases w with
  | exits code out err =>
    by_cases hc : code = 0
    · subst hc
      exact ⟨(true, none), rfl⟩
    · exact ⟨(false, some err), by simp [mergeSubtitlesV3, subprocessRun, hc, getattrStderr]⟩
  | binaryMissing m => exact ⟨(false, some m), rfl⟩
  | failsWith m => exact ⟨(false, some m), rfl⟩

/-- mergerV3 scan with no video candidate present: no video selected, the
subtitles collected in discovery order, no warning. -/
theorem scanFolderV3_none_no_video (folder : FPath) :
    ∀ (entries : List Entry), entries.filter isVideoEntry = [] →
      ∀ (subs : List FPath) (warns : List String),
        scanFolderV3 folder entries none subs warns =
          (none,
           subs ++ (entries.filter isSubtitleEntry).map (fun e => childPath folder e.name),
           warns) := by
  intro entries
  induction entries with
  | nil => intro _ subs warns; simp [scanFolderV3]
  | cons e rest ih =>
    intro hfil subs warns
    rw [List.filter_cons] at hfil
    by_cases he : isVideoEntry e = true
    · rw [if_pos he] at hfil; cases hfil
    · rw [if_neg he] at hfil
      have he' : e.isFile = false ∨
          (e.isFile = true ∧ videoExtensions.contains (pyLower (suffixOf e.name)) = false) := by
        cases hf : e.isFile with
        | false => exact Or.inl rfl
        | true =>
          refine Or.inr ⟨rfl, ?_⟩
          cases hv : videoExtensions.contains (pyLower (suffixOf e.name)) with
          | false => rfl
          | true => exact absurd (by unfold isVideoEntry; rw [hf, hv]; rfl) he
      rcases he' with hf | ⟨hf, hv⟩
      · have hsp : isSubtitleEntry e = false := by unfold isSubtitleEntry; rw [hf]; rfl
        simp only [scanFolderV3, hf, Bool.false_eq_true, if_false]
        rw [ih hfil]
        simp [List.filter_cons, hsp]
      · cases hs : (pyLower (suffixOf e.name) == subtitleExtension) with
        | true =>
          have hsp : isSubtitleEntry e = true := by unfold isSubtitleEntry; rw [hf, hs]; rfl
          simp only [scanFolderV3, hf, hv, hs, Bool.false_eq_true, if_false, if_true]
          rw [ih hfil]
          simp [List.filter_cons, hsp, List.append_assoc]
        | false =>
          have hsp : isSubtitleEntry e = false := by unfold isSubtitleEntry; rw [hf, hs]; rfl
          simp only [scanFolderV3, hf, hv, hs, Bool.false_eq_true, if_false]
          rw [ih hfil]
          simp [List.filter_cons, hsp]

/-- The per-folder flag of mergerV3's loop does not depend on the loop
indices. -/
theorem folderStepV3_flag (idx total : Nat) (f : FolderSpec) :
    (folderStepV3 idx total f).2.2 = folderSucceedsV3 f := by
  unfold folderSucceedsV3
  rcases ha : analyzeFolderV3 f.path f.contents with ⟨v, subs, ws⟩
  cases v with
  | none => simp [folderStepV3, ha]
  | some video =>
    cases subs with
    | nil => simp [folderStepV3, ha]
    | cons s ss =>
      cases hm : mergeSubtitlesV3 video (s :: ss) (outputPathFor video) f.proc with
      | error e => simp [folderStepV3, ha, hm]
      | ok r =>
        obtain ⟨b, err⟩ := r
        cases b <;> simp [folderStepV3, ha, hm]

/-- mergerV3's thread is total: for every batch it is the concatenation of
the per-folder segments followed by exactly the final summary, whose count is
the number of succeeding folders. -/
theorem threadGo_ok (total : Nat) :
    ∀ (folders : List FolderSpec) (idx succ : Nat) (acc : List Event)
      (calls : List (List String)),
      (threadGo total idx succ acc calls folders).1 =
          acc ++ (segsOfV3 total idx folders).flatten ++
            [.summary (succ + folders.countP folderSucceedsV3) total] ∧
      (threadGo total idx succ acc calls folders).2.2 =
          succ + folders.countP folderSucceedsV3 := by
  intro folders
  induction folders with
  | nil =>
    intro idx succ acc calls
    exact ⟨by simp [threadGo, segsOfV3], by simp [threadGo]⟩
  | cons f rest ih =>
    intro idx succ acc calls
    rcases hfs : folderStepV3 idx total f with ⟨evts, cs, b⟩
    have hsf : folderSucceedsV3 f = b := by
      have h2 := folderStepV3_flag idx total f
      rw [hfs] at h2
      exact h2.symm
    have hcnt : succ + (f :: rest).countP folderSucceedsV3 =
        (if b then succ + 1 else succ) + rest.countP folderSucceedsV3 := by
      rw [List.countP_cons, hsf]
      cases b <;> simp <;> omega
    obtain ⟨ihE, ihR⟩ := ih (idx + 1) (if b then succ + 1 else succ)
      (acc ++ evts) (calls ++ cs)
    constructor
    · simp only [threadGo, hfs]
      rw [ihE, hcnt]
      simp [segsOfV3, hfs, List.append_assoc]
    · simp only [threadGo, hfs]
      rw [ihR, hcnt]

theorem segsOfV3_length (total : Nat) :
    ∀ (folders : List FolderSpec) (idx : Nat),
      (segsOfV3 total idx folders).length = folders.length := by
  intro folders
  induction folders with
  | nil => intro idx; rfl
  | cons f rest ih => intro idx; simp [segsOfV3, ih]

theorem segsOfV3_getD (total : Nat) :
    ∀ (folders : List FolderSpec) (idx i : Nat), i < folders.length →
      (segsOfV3 total idx folders).getD i [] =
        (folderStepV3 (idx + i) total (folders.getD i default)).1 := by
  intro folders
  induction folders with
  | nil => intro idx i h; cases h
  | cons f rest ih =>
    intro idx i h
    cases i with
    | zero => simp [segsOfV3]
    | succ j =>
      have hj : j < rest.length := by simpa using h
      have heq : idx + 1 + j = idx + (j + 1) := by omega
      simp only [segsOfV3, List.getD_cons_succ]
      rw [ih (idx + 1) j hj, heq]

/-- Shape of one mergerV3 iteration's event segment: the progress event, the
analyzing log, and exactly one terminal log (combined skip, success, or
failure). -/
theorem folderStepV3_shape (idx total : Nat) (f : FolderSpec) :
    ∃ term,
      (folderStepV3 idx total f).1 =
        [.progress idx total f.path.name, .logMsg (analyzingTextV3 f.path), term] ∧
      (term = .logMsg skipTextV3 ∨
       (∃ out, term = .logMsg (successTextV3 out)) ∨
       (∃ e, term = .logMsg (failTextV3 e))) := by
  rcases ha : analyzeFolderV3 f.path f.contents with ⟨v, subs, ws⟩
  cases v with
  | none => exact ⟨.logMsg skipTextV3, by simp [folderStepV3, ha], Or.inl rfl⟩
  | some video =>
    cases subs with
    | nil => exact ⟨.logMsg skipTextV3, by simp [folderStepV3, ha], Or.inl rfl⟩
    | cons s ss =>
      cases hm : mergeSubtitlesV3 video (s :: ss) (outputPathFor video) f.proc with
      | error e =>
        exfalso
        obtain ⟨r, hr⟩ := mergeSubtitlesV3_total video (s :: ss) (outputPathFor video) f.proc
        rw [hm] at hr
        cases hr
      | ok r =>
        obtain ⟨b, err⟩ := r
        cases b with
        | true =>
          exact ⟨.logMsg (successTextV3 (outputPathFor video)),
            by simp [folderStepV3, ha, hm],
            Or.inr (Or.inl ⟨outputPathFor video, rfl⟩)⟩
        | false =>
          exact ⟨.logMsg (failTextV3 err), by simp [folderStepV3, ha, hm],
            Or.inr (Or.inr ⟨err, rfl⟩)⟩

/-! ## Claim theorems -/

/-- C1: for every video file, subtitle list, output path and external-process
behaviour, merge_subtitles returns a MergeOutcome — a success flag paired with
an optional error text — in both variants; no exception ever escapes its
boundary, so the orchestrator needs no exception handling around the call. -/
theorem C1_merge_never_raises (video : FPath) (subs : List FPath) (output : FPath)
    (w : ProcBehavior) :
    (∃ r, mergeSubtitles video subs output w = .ok r) ∧
    (∃ r, mergeSubtitlesV3 video subs output w = .ok r) := by
  cases w with
  | exits code out err =>
    by_cases hc : code = 0
    · subst hc
      exact ⟨⟨(true, none), rfl⟩, ⟨(true, none), rfl⟩⟩
    · refine ⟨⟨(false, some ("mkvmerge error (Code " ++ toString code ++ "): " ++ err)), ?_⟩,
        ⟨(false, some err), ?_⟩⟩ <;>
        simp [mergeSubtitles, mergeSubtitlesV3, subprocessRun, hc, getattrStderr]
  | binaryMissing m => exact ⟨⟨(false, some notFoundGuidance), rfl⟩, ⟨(false, some m), rfl⟩⟩
  | failsWith m =>
    exact ⟨⟨(false, some ("Unexpected error: " ++ m)), rfl⟩, ⟨(false, some m), rfl⟩⟩

/-- C2: the external command built by merge is exactly the tool path, then
'-o' and the output path, then the video path, then for each subtitle in
input order the pair '--language', '0:eng' followed by that subtitle's path,
with the subtitles' relative order preserved. -/
theorem C2_command_shape (video : FPath) (subs : List FPath) (output : FPath) :
    buildCmd video subs output =
      [mkvmergePath, "-o", strFPath output, strFPath video] ++
        subs.flatMap (fun sub => ["--language", "0:eng", strFPath sub]) := by
  unfold buildCmd
  rw [foldl_extend]
  rw [List.flatMap_def]

/-- C4 as stated is false: a permission-denied folder makes merger.py's
analyze_folder raise (its `except` clause catches only FileNotFoundError),
instead of returning an empty AnalysisResult. -/
theorem C4_counterexample :
    analyzeFolder ⟨["r"], "f"⟩ (.inaccessible (.permission "denied")) =
        .error (.permissionError "denied") ∧
      analyzeFolder ⟨["r"], "f"⟩ (.inaccessible (.permission "denied")) ≠
        .ok (none, [], [inaccessibleText ⟨["r"], "f"⟩]) :=
  ⟨rfl, fun h => Except.noConfusion h⟩

/-- C4 amended: for a folder whose enumeration raises FileNotFoundError
(moved or deleted), analyze returns an empty AnalysisResult (no video, no
subtitles) and logs the inaccessible-folder condition instead of raising, and
the merger.py batch loop records such a folder as a skip and continues;
mergerV3's analyze returns the empty result for every enumeration failure.
A permission error, by contrast, escapes merger.py's analyze. -/
theorem C4_amended (folder : FPath) (m : String) :
    analyzeFolder folder (.inaccessible (.notFound m)) =
        .ok (none, [], [inaccessibleText folder]) ∧
      (∀ e, analyzeFolderV3 folder (.inaccessible e) =
        (none, [],
         ["Could not analyze folder " ++ strFPath folder ++ ": " ++ pyStr (exnOfAccess e)])) ∧
      (∀ idx total proc,
        folderStep idx total ⟨folder, .inaccessible (.notFound m), proc⟩ =
          ([.progress idx total folder.name, .logMsg (analyzingText idx total folder),
            .logMsg noVideoText], [], .ok false)) := by
  refine ⟨rfl, fun e => rfl, fun idx total proc => ?_⟩
  simp [folderStep, analyzeFolder]

/-- C8: for every video file reaching the merge step (its lowered extension is
a configured video extension), the computed output path is the video's stem
followed by the configured suffix marker and the '.mkv' container extension,
in the same directory as the source video. -/
theorem C8_output_naming (v : FPath)
    (h : videoExtensions.contains (pyLower (suffixOf v.name)) = true) :
    outputPathFor v = ⟨v.parents, stemOf v.name ++ outputSuffixMarker ++ ".mkv"⟩ ∧
      (outputPathFor v).parents = v.parents := by
  refine ⟨outputPathFor_eq v h, ?_⟩
  rw [outputPathFor_eq v h]

theorem C8_witness :
    videoExtensions.contains (pyLower (suffixOf "movie.mp4")) = true ∧
      (outputPathFor ⟨["d"], "movie.mp4"⟩ =
          ⟨["d"], stemOf "movie.mp4" ++ outputSuffixMarker ++ ".mkv"⟩ ∧
        (outputPathFor ⟨["d"], "movie.mp4"⟩).parents = ["d"]) :=
  ⟨by decide, C8_output_naming ⟨["d"], "movie.mp4"⟩ (by decide)⟩

/-- C5 as stated is false: for a folder enumerating a.mp4 then b.mkv,
analyze selects a.mp4, but the ambiguity warning references the retained
first file a.mp4, not the subsequent file b.mkv. -/
theorem C5_counterexample :
    analyzeFolder ⟨[], "f"⟩ (.accessible [⟨"a.mp4", true⟩, ⟨"b.mkv", true⟩]) =
        .ok (some ⟨["f"], "a.mp4"⟩, [], ["Multiple videos in f. Using 'a.mp4'."]) ∧
      strContainsSub "Multiple videos in f. Using 'a.mp4'." "b.mkv" = false := by
  exact ⟨rfl, by decide⟩

/-- C5 amended: the first video match wins in enumeration order; each
subsequent video match is recorded as an ambiguity warning (a warning, not a
failure) and does not replace the first selection, but in merger.py the
warning references the retained first video file, and in mergerV3 it
references no particular file — not the subsequent file. -/
theorem C5_amended (folder : FPath) (entries : List Entry) (e0 : Entry)
    (vrest : List Entry) (hfil : entries.filter isVideoEntry = e0 :: vrest) :
    (∃ subs, analyzeFolder folder (.accessible entries) =
        .ok (some (childPath folder e0.name), subs,
          vrest.map (fun _ => warnText folder e0.name))) ∧
    (∃ subs, analyzeFolderV3 folder (.accessible entries) =
        (some (childPath folder e0.name), subs,
         vrest.map (fun _ => warnTextV3 folder))) := by
  have h1 := scanFolder_none_video folder entries e0 vrest hfil [] []
  have h2 := scanFolderV3_none_video folder entries e0 vrest hfil [] []
  simp only [List.nil_append] at h1 h2
  constructor
  · refine ⟨(entries.filter isSubtitleEntry).map (fun e => childPath folder e.name), ?_⟩
    show Except.ok (scanFolder folder entries none [] []) = _
    rw [h1]
  · refine ⟨(entries.filter isSubtitleEntry).map (fun e => childPath folder e.name), ?_⟩
    show scanFolderV3 folder entries none [] [] = _
    rw [h2]

theorem C5_amended_witness :
    ([⟨"a.mp4", true⟩, ⟨"b.mkv", true⟩] : List Entry).filter isVideoEntry =
        [⟨"a.mp4", true⟩, ⟨"b.mkv", true⟩] ∧
      ((∃ subs, analyzeFolder ⟨[], "f"⟩ (.accessible [⟨"a.mp4", true⟩, ⟨"b.mkv", true⟩]) =
          .ok (some (childPath ⟨[], "f"⟩ "a.mp4"), subs, [warnText ⟨[], "f"⟩ "a.mp4"])) ∧
       (∃ subs, analyzeFolderV3 ⟨[], "f"⟩ (.accessible [⟨"a.mp4", true⟩, ⟨"b.mkv", true⟩]) =
          (some (childPath ⟨[], "f"⟩ "a.mp4"), subs, [warnTextV3 ⟨[], "f"⟩]))) :=
  ⟨by decide,
   C5_amended ⟨[], "f"⟩ [⟨"a.mp4", true⟩, ⟨"b.mkv", true⟩] ⟨"a.mp4", true⟩
     [⟨"b.mkv", true⟩] (by decide)⟩

/-- C6 as stated is false: when the external tool exits with status 1 and
stderr "bad track", mergerV3's merge returns the bare stderr as error text,
which does not contain the exit code. -/
theorem C6_counterexample :
    mergeSubtitlesV3 ⟨["d"], "v.mp4"⟩ [⟨["d"], "s.srt"⟩] ⟨["d"], "v_subbed.mkv"⟩
        (.exits 1 "out" "bad track") = .ok (false, some "bad track") ∧
      strContainsSub "bad track" "1" = false := by
  exact ⟨rfl, by decide⟩

/-- C6 amended: merger.py classifies failures as the claim states — nonzero
exit yields an error text containing both the captured stderr and the exit
code, a missing binary yields the fixed guidance message, and any other
invocation failure yields 'Unexpected error: ' followed by the stringified
cause.  mergerV3 instead reports the exception's stderr attribute when
present — for a nonzero exit the bare stderr, without the exit code — and the
stringified exception (not the fixed guidance) when the binary is missing. -/
theorem C6_amended (video : FPath) (subs : List FPath) (output : FPath) :
    (∀ code out err, code ≠ 0 →
      mergeSubtitles video subs output (.exits code out err) =
          .ok (false, some ("mkvmerge error (Code " ++ toString code ++ "): " ++ err)) ∧
        strContainsSub ("mkvmerge error (Code " ++ toString code ++ "): " ++ err) err
          = true ∧
        strContainsSub ("mkvmerge error (Code " ++ toString code ++ "): " ++ err)
          (toString code) = true) ∧
    (∀ m, mergeSubtitles video subs output (.binaryMissing m) =
        .ok (false, some notFoundGuidance)) ∧
    (∀ m, mergeSubtitles video subs output (.failsWith m) =
        .ok (false, some ("Unexpected error: " ++ m))) ∧
    (∀ code out err, code ≠ 0 →
      mergeSubtitlesV3 video subs output (.exits code out err) = .ok (false, some err)) ∧
    (∀ m, mergeSubtitlesV3 video subs output (.binaryMissing m) = .ok (false, some m)) := by
  refine ⟨?_, fun m => rfl, fun m => rfl, ?_, fun m => rfl⟩
  · intro code out err hc
    refine ⟨by simp [mergeSubtitles, subprocessRun, hc], ?_, ?_⟩
    · exact strContainsSub_of_data
        (("mkvmerge error (Code " ++ toString code ++ "): ").data) []
        (by simp [String.data_append, List.append_assoc])
    · exact strContainsSub_of_data ("mkvmerge error (Code ".data)
        (("): " ++ err).data)
        (by simp [String.data_append, List.append_assoc])
  · intro code out err hc
    simp [mergeSubtitlesV3, subprocessRun, hc, getattrStderr]

theorem C6_amended_witness :
    (1 : Nat) ≠ 0 ∧
      (mergeSubtitles ⟨["d"], "v.mp4"⟩ [] ⟨["d"], "o.mkv"⟩ (.exits 1 "" "boom") =
          .ok (false, some ("mkvmerge error (Code " ++ toString 1 ++ "): " ++ "boom")) ∧
        strContainsSub ("mkvmerge error (Code " ++ toString 1 ++ "): " ++ "boom") "boom"
          = true ∧
        strContainsSub ("mkvmerge error (Code " ++ toString 1 ++ "): " ++ "boom")
          (toString 1) = true) :=
  ⟨by decide,
   (C6_amended ⟨["d"], "v.mp4"⟩ [] ⟨["d"], "o.mkv"⟩).1 1 "" "boom" (by decide)⟩

/-- C9 as stated is false: a folder with zero subtitle files and no video is
reported with the no-video reason, not "no subtitles". -/
theorem C9_counterexample :
    folderStep 1 1 ⟨⟨["r"], "f"⟩, .accessible [], .exits 0 "" ""⟩ =
        ([.progress 1 1 "f", .logMsg (analyzingText 1 1 ⟨["r"], "f"⟩),
          .logMsg noVideoText], [], .ok false) ∧
      noVideoText ≠ noSubsText := by
  exact ⟨rfl, by decide⟩

/-- C9 amended: in merger.py a folder with zero subtitle files is skipped
with the reason "no subtitles" only when a video file is present; when no
video is present either, the no-video reason takes precedence.  mergerV3
reports every skip with its combined no-video-or-subtitles reason. -/
theorem C9_amended (idx total : Nat) (f : FolderSpec) :
    (∀ video ws, analyzeFolder f.path f.contents = .ok (some video, [], ws) →
      folderStep idx total f =
        ([.progress idx total f.path.name, .logMsg (analyzingText idx total f.path),
          .logMsg noSubsText], [], .ok false)) ∧
    (∀ ws, analyzeFolder f.path f.contents = .ok (none, [], ws) →
      folderStep idx total f =
        ([.progress idx total f.path.name, .logMsg (analyzingText idx total f.path),
          .logMsg noVideoText], [], .ok false)) ∧
    (∀ v ws, analyzeFolderV3 f.path f.contents = (v, [], ws) →
      folderStepV3 idx total f =
        ([.progress idx total f.path.name, .logMsg (analyzingTextV3 f.path),
          .logMsg skipTextV3], [], false)) := by
  refine ⟨?_, ?_, ?_⟩
  · intro video ws ha
    simp [folderStep, ha]
  · intro ws ha
    simp [folderStep, ha]
  · intro v ws ha
    cases v <;> simp [folderStepV3, ha]

theorem C9_amended_witness :
    analyzeFolder ⟨["r"], "g"⟩ (.accessible [⟨"a.mp4", true⟩]) =
        .ok (some ⟨["r", "g"], "a.mp4"⟩, [], []) ∧
      folderStep 1 1 ⟨⟨["r"], "g"⟩, .accessible [⟨"a.mp4", true⟩], .exits 0 "" ""⟩ =
        ([.progress 1 1 "g", .logMsg (analyzingText 1 1 ⟨["r"], "g"⟩),
          .logMsg noSubsText], [], .ok false) :=
  ⟨rfl,
   (C9_amended 1 1 ⟨⟨["r"], "g"⟩, .accessible [⟨"a.mp4", true⟩], .exits 0 "" ""⟩).1
     ⟨["r", "g"], "a.mp4"⟩ [] rfl⟩

/-- C3: if a folder's analysis yields zero video candidates or zero subtitle
candidates, the Executor is never invoked for that folder (no command is
issued), the folder is recorded as skipped via a warning (not as failed), it
does not count as a success in either variant, and any summary the run emits
reports total = number of submitted folders and succeeded = number of
succeeding folders. -/
theorem C3_skipped_folders_never_reach_executor (idx total : Nat) (f : FolderSpec) :
    (∀ v subs ws, analyzeFolder f.path f.contents = .ok (v, subs, ws) →
      (v = none ∨ subs = []) →
      ∃ m, folderStep idx total f =
          ([.progress idx total f.path.name, .logMsg (analyzingText idx total f.path),
            .logMsg m], [], .ok false) ∧
        (m = noVideoText ∨ m = noSubsText) ∧
        folderSucceeds f = false) ∧
    (∀ v subs ws, analyzeFolderV3 f.path f.contents = (v, subs, ws) →
      (v = none ∨ subs = []) →
      folderStepV3 idx total f =
        ([.progress idx total f.path.name, .logMsg (analyzingTextV3 f.path),
          .logMsg skipTextV3], [], false)) ∧
    (∀ (batch : List FolderSpec) (s t : Nat),
      Event.summary s t ∈ (runWorker batch).events →
      t = batch.length ∧ s = batch.countP folderSucceeds) := by
  refine ⟨?_, ?_, ?_⟩
  · intro v subs ws ha hskip
    cases v with
    | none =>
      refine ⟨noVideoText, by simp [folderStep, ha], Or.inl rfl, ?_⟩
      unfold folderSucceeds folderFlag
      simp [folderStep, ha]
    | some video =>
      rcases hskip with h | h
      · cases h
      · subst h
        refine ⟨noSubsText, by simp [folderStep, ha], Or.inr rfl, ?_⟩
        unfold folderSucceeds folderFlag
        simp [folderStep, ha]
  · intro v subs ws ha hskip
    rcases hskip with h | h
    · subst h
      simp [folderStepV3, ha]
    · subst h
      cases v <;> simp [folderStepV3, ha]
  · intro batch s t hmem
    unfold runWorker at hmem
    have hsum := workerGo_summary_mem batch.length batch 1 0 [] [] s t hmem
    rcases hsum with h | ⟨hr, ht, hs⟩
    · cases h
    · refine ⟨ht, ?_⟩
      rw [hs]
      simp

theorem C3_witness :
    analyzeFolder ⟨["r"], "w3"⟩ (.accessible []) = .ok (none, [], []) ∧
      (∃ m, folderStep 1 1 ⟨⟨["r"], "w3"⟩, .accessible [], .exits 0 "" ""⟩ =
          ([.progress 1 1 "w3", .logMsg (analyzingText 1 1 ⟨["r"], "w3"⟩), .logMsg m],
           [], .ok false) ∧
        (m = noVideoText ∨ m = noSubsText) ∧
        folderSucceeds ⟨⟨["r"], "w3"⟩, .accessible [], .exits 0 "" ""⟩ = false) :=
  ⟨rfl,
   (C3_skipped_folders_never_reach_executor 1 1
       ⟨⟨["r"], "w3"⟩, .accessible [], .exits 0 "" ""⟩).1 none [] [] rfl (Or.inl rfl)⟩

/-- C10: in both variants, analyze assigns each enumerated file at most one
role — the subtitle list is exactly the regular files whose case-insensitive
extension equals the configured subtitle extension, in discovery order; the
selected video never appears in the subtitle list; and a file matching a
video extension is never collected as a subtitle, even when the video slot is
already taken. -/
theorem C10_role_partition (folder : FPath) (entries : List Entry) :
    (∃ v ws,
      analyzeFolder folder (.accessible entries) =
          .ok (v, (entries.filter isSubtitleEntry).map (fun e => childPath folder e.name), ws) ∧
      (∀ vf, v = some vf →
        vf ∉ (entries.filter isSubtitleEntry).map (fun e => childPath folder e.name)) ∧
      (∀ e, e ∈ entries → isVideoEntry e = true →
        childPath folder e.name ∉
          (entries.filter isSubtitleEntry).map (fun e2 => childPath folder e2.name))) ∧
    (∃ v ws,
      analyzeFolderV3 folder (.accessible entries) =
          (v, (entries.filter isSubtitleEntry).map (fun e => childPath folder e.name), ws) ∧
      (∀ vf, v = some vf →
        vf ∉ (entries.filter isSubtitleEntry).map (fun e => childPath folder e.name)) ∧
      (∀ e, e ∈ entries → isVideoEntry e = true →
        childPath folder e.name ∉
          (entries.filter isSubtitleEntry).map (fun e2 => childPath folder e2.name))) := by
  have hthird : ∀ e, e ∈ entries → isVideoEntry e = true →
      childPath folder e.name ∉
        (entries.filter isSubtitleEntry).map (fun e2 => childPath folder e2.name) := by
    intro e he hv
    have hext : videoExtensions.contains (pyLower (suffixOf e.name)) = true := by
      unfold isVideoEntry at hv
      rw [Bool.and_eq_true] at hv
      exact hv.2
    exact video_name_not_in_subs folder entries hext
  cases hfil : entries.filter isVideoEntry with
  | nil =>
    constructor
    · refine ⟨none, [], ?_, ?_, hthird⟩
      · show Except.ok (scanFolder folder entries none [] []) = _
        rw [scanFolder_none_no_video folder entries hfil [] []]
        simp
      · intro vf h
        cases h
    · refine ⟨none, [], ?_, ?_, hthird⟩
      · show scanFolderV3 folder entries none [] [] = _
        rw [scanFolderV3_none_no_video folder entries hfil [] []]
        simp
      · intro vf h
        cases h
  | cons e0 vrest =>
    have he0 : isVideoEntry e0 = true := by
      have hmem : e0 ∈ entries.filter isVideoEntry := by
        rw [hfil]
        exact List.mem_cons_self e0 vrest
      exact (List.mem_filter.mp hmem).2
    have hext : videoExtensions.contains (pyLower (suffixOf e0.name)) = true := by
      unfold isVideoEntry at he0
      rw [Bool.and_eq_true] at he0
      exact he0.2
    have hnotin : ∀ vf, some (childPath folder e0.name) = some vf →
        vf ∉ (entries.filter isSubtitleEntry).map (fun e => childPath folder e.name) := by
      intro vf h
      injection h with h
      subst h
      exact video_name_not_in_subs folder entries hext
    constructor
    · refine ⟨some (childPath folder e0.name),
        vrest.map (fun _ => warnText folder e0.name), ?_, hnotin, hthird⟩
      show Except.ok (scanFolder folder entries none [] []) = _
      rw [scanFolder_none_video folder entries e0 vrest hfil [] []]
      simp
    · refine ⟨some (childPath folder e0.name),
        vrest.map (fun _ => warnTextV3 folder), ?_, hnotin, hthird⟩
      show scanFolderV3 folder entries none [] [] = _
      rw [scanFolderV3_none_video folder entries e0 vrest hfil [] []]
      simp

theorem C10_witness :
    (∃ v ws,
      analyzeFolder ⟨[], "w10"⟩
          (.accessible [⟨"a.mp4", true⟩, ⟨"x.srt", true⟩, ⟨"b.mkv", true⟩]) =
          .ok (v,
            (([⟨"a.mp4", true⟩, ⟨"x.srt", true⟩, ⟨"b.mkv", true⟩] : List Entry).filter
                isSubtitleEntry).map (fun e => childPath ⟨[], "w10"⟩ e.name), ws) ∧
      (∀ vf, v = some vf →
        vf ∉ (([⟨"a.mp4", true⟩, ⟨"x.srt", true⟩, ⟨"b.mkv", true⟩] : List Entry).filter
            isSubtitleEntry).map (fun e => childPath ⟨[], "w10"⟩ e.name)) ∧
      (∀ e, e ∈ ([⟨"a.mp4", true⟩, ⟨"x.srt", true⟩, ⟨"b.mkv", true⟩] : List Entry) →
        isVideoEntry e = true →
        childPath ⟨[], "w10"⟩ e.name ∉
          (([⟨"a.mp4", true⟩, ⟨"x.srt", true⟩, ⟨"b.mkv", true⟩] : List Entry).filter
              isSubtitleEntry).map (fun e2 => childPath ⟨[], "w10"⟩ e2.name))) ∧
    (∃ v ws,
      analyzeFolderV3 ⟨[], "w10"⟩
          (.accessible [⟨"a.mp4", true⟩, ⟨"x.srt", true⟩, ⟨"b.mkv", true⟩]) =
          (v,
            (([⟨"a.mp4", true⟩, ⟨"x.srt", true⟩, ⟨"b.mkv", true⟩] : List Entry).filter
                isSubtitleEntry).map (fun e => childPath ⟨[], "w10"⟩ e.name), ws) ∧
      (∀ vf, v = some vf →
        vf ∉ (([⟨"a.mp4", true⟩, ⟨"x.srt", true⟩, ⟨"b.mkv", true⟩] : List Entry).filter
            isSubtitleEntry).map (fun e => childPath ⟨[], "w10"⟩ e.name)) ∧
      (∀ e, e ∈ ([⟨"a.mp4", true⟩, ⟨"x.srt", true⟩, ⟨"b.mkv", true⟩] : List Entry) →
        isVideoEntry e = true →
        childPath ⟨[], "w10"⟩ e.name ∉
          (([⟨"a.mp4", true⟩, ⟨"x.srt", true⟩, ⟨"b.mkv", true⟩] : List Entry).filter
              isSubtitleEntry).map (fun e2 => childPath ⟨[], "w10"⟩ e2.name))) :=
  C10_role_partition ⟨[], "w10"⟩ [⟨"a.mp4", true⟩, ⟨"x.srt", true⟩, ⟨"b.mkv", true⟩]

/-- C7 as stated is false: a batch containing a permission-denied folder
makes merger.py's worker raise out of the loop, so the run emits no summary
at all (the claim requires exactly one summary per run). -/
theorem C7_counterexample :
    (runWorker [⟨⟨["r"], "f2"⟩, .inaccessible (.permission "denied"),
        .exits 0 "" ""⟩]).events =
        [.progress 1 1 "f2", .logMsg "\n--- [1/1] Analyzing: r/f2 ---"] ∧
      (runWorker [⟨⟨["r"], "f2"⟩, .inaccessible (.permission "denied"),
          .exits 0 "" ""⟩]).result = .error (.permissionError "denied") ∧
      ((runWorker [⟨⟨["r"], "f2"⟩, .inaccessible (.permission "denied"),
          .exits 0 "" ""⟩]).events.countP isSummaryEvent) = 0 := by
  refine ⟨by decide, rfl, by decide⟩

/-- C7 amended: mergerV3's thread satisfies the claim for every batch — it
processes the folders strictly in the given order, emits for each folder a
progress event (1-based index, total, folder display name) and the analyzing
log followed by exactly one terminal outcome, and after the last folder emits
exactly one summary whose total equals the number of submitted folders and
whose succeeded count equals the number of successful merges.  merger.py
satisfies the same (with its finished signal and optional info logs before
the terminal outcome) provided no folder's enumeration raises an exception it
leaves uncaught (it catches only FileNotFoundError, so e.g. a
permission-denied folder aborts its run before any summary). -/
theorem C7_amended (folders : List FolderSpec) :
    ((∀ f ∈ folders, folderCrashes f = false) →
      ∃ segs : List (List Event),
        segs.length = folders.length ∧
        (runWorker folders).events =
            segs.flatten ++
              [.summary (folders.countP folderSucceeds) folders.length, .finished] ∧
        (runWorker folders).result = .ok (folders.countP folderSucceeds) ∧
        ∀ i, i < folders.length →
          ∃ mid term,
            segs.getD i [] =
                .progress (i + 1) folders.length (folders.getD i default).path.name ::
                  .logMsg (analyzingText (i + 1) folders.length
                    (folders.getD i default).path) ::
                  (mid ++ [term]) ∧
            (mid = [] ∨ ∃ v k, mid = [.logMsg (videoText v), .logMsg (subsCountText k)]) ∧
            (term = .logMsg noVideoText ∨ term = .logMsg noSubsText ∨
             (∃ out, term = .logMsg (successText out)) ∨
             (∃ e, term = .logMsg (failText e)))) ∧
    (∃ segs : List (List Event),
      segs.length = folders.length ∧
      (runThreadV3 folders).1 =
          segs.flatten ++
            [.summary (folders.countP folderSucceedsV3) folders.length] ∧
      (runThreadV3 folders).2.2 = folders.countP folderSucceedsV3 ∧
      ∀ i, i < folders.length →
        ∃ term,
          segs.getD i [] =
              [.progress (i + 1) folders.length (folders.getD i default).path.name,
               .logMsg (analyzingTextV3 (folders.getD i default).path), term] ∧
          (term = .logMsg skipTextV3 ∨
           (∃ out, term = .logMsg (successTextV3 out)) ∨
           (∃ e, term = .logMsg (failTextV3 e)))) := by
  constructor
  · intro hA
    obtain ⟨hE, hR⟩ := workerGo_ok folders.length folders 1 0 [] [] hA
    refine ⟨segsOf folders.length 1 folders, segsOf_length folders.length folders 1,
      ?_, ?_, ?_⟩
    · unfold runWorker
      rw [hE]
      simp
    · unfold runWorker
      rw [hR]
      simp
    · intro i hi
      have hg := segsOf_getD folders.length folders 1 i hi
      rw [Nat.add_comm 1 i] at hg
      rw [hg]
      apply folderStep_shape
      apply hA
      have hgd : folders.getD i default = folders[i] := List.getD_eq_getElem folders default hi
      rw [hgd]
      exact List.getElem_mem hi
  · obtain ⟨hE, hR⟩ := threadGo_ok folders.length folders 1 0 [] []
    refine ⟨segsOfV3 folders.length 1 folders, segsOfV3_length folders.length folders 1,
      ?_, ?_, ?_⟩
    · unfold runThreadV3
      rw [hE]
      simp
    · unfold runThreadV3
      rw [hR]
      simp
    · intro i hi
      have hg := segsOfV3_getD folders.length folders 1 i hi
      rw [Nat.add_comm 1 i] at hg
      rw [hg]
      exact folderStepV3_shape (i + 1) folders.length (folders.getD i default)

theorem C7_amended_witness :
    (∀ f ∈ ([⟨⟨["r"], "a1"⟩, .accessible [⟨"v.mp4", true⟩, ⟨"s.srt", true⟩], .exits 0 "" ""⟩,
        ⟨⟨["r"], "a2"⟩, .inaccessible (.notFound "gone"), .exits 0 "" ""⟩,
        ⟨⟨["r"], "a3"⟩, .accessible [⟨"v.mp4", true⟩, ⟨"s.srt", true⟩],
          .exits 1 "" "bad"⟩] : List FolderSpec),
      folderCrashes f = false) ∧
      ((∃ segs : List (List Event),
        segs.length = ([⟨⟨["r"], "a1"⟩, .accessible [⟨"v.mp4", true⟩, ⟨"s.srt", true⟩], .exits 0 "" ""⟩,
        ⟨⟨["r"], "a2"⟩, .inaccessible (.notFound "gone"), .exits 0 "" ""⟩,
        ⟨⟨["r"], "a3"⟩, .accessible [⟨"v.mp4", true⟩, ⟨"s.srt", true⟩],
          .exits 1 "" "bad"⟩] : List FolderSpec).length ∧
        (runWorker ([⟨⟨["r"], "a1"⟩, .accessible [⟨"v.mp4", true⟩, ⟨"s.srt", true⟩], .exits 0 "" ""⟩,
        ⟨⟨["r"], "a2"⟩, .inaccessible (.notFound "gone"), .exits 0 "" ""⟩,
        ⟨⟨["r"], "a3"⟩, .accessible [⟨"v.mp4", true⟩, ⟨"s.srt", true⟩],
          .exits 1 "" "bad"⟩] : List FolderSpec)).events =
            segs.flatten ++
              [.summary (([⟨⟨["r"], "a1"⟩, .accessible [⟨"v.mp4", true⟩, ⟨"s.srt", true⟩], .exits 0 "" ""⟩,
        ⟨⟨["r"], "a2"⟩, .inaccessible (.notFound "gone"), .exits 0 "" ""⟩,
        ⟨⟨["r"], "a3"⟩, .accessible [⟨"v.mp4", true⟩, ⟨"s.srt", true⟩],
          .exits 1 "" "bad"⟩] : List FolderSpec).countP folderSucceeds)
                  ([⟨⟨["r"], "a1"⟩, .accessible [⟨"v.mp4", true⟩, ⟨"s.srt", true⟩], .exits 0 "" ""⟩,
        ⟨⟨["r"], "a2"⟩, .inaccessible (.notFound "gone"), .exits 0 "" ""⟩,
        ⟨⟨["r"], "a3"⟩, .accessible [⟨"v.mp4", true⟩, ⟨"s.srt", true⟩],
          .exits 1 "" "bad"⟩] : List FolderSpec).length, .finished] ∧
        (runWorker ([⟨⟨["r"], "a1"⟩, .accessible [⟨"v.mp4", true⟩, ⟨"s.srt", true⟩], .exits 0 "" ""⟩,
        ⟨⟨["r"], "a2"⟩, .inaccessible (.notFound "gone"), .exits 0 "" ""⟩,
        ⟨⟨["r"], "a3"⟩, .accessible [⟨"v.mp4", true⟩, ⟨"s.srt", true⟩],
          .exits 1 "" "bad"⟩] : List FolderSpec)).result =
            .ok (([⟨⟨["r"], "a1"⟩, .accessible [⟨"v.mp4", true⟩, ⟨"s.srt", true⟩], .exits 0 "" ""⟩,
        ⟨⟨["r"], "a2"⟩, .inaccessible (.notFound "gone"), .exits 0 "" ""⟩,
        ⟨⟨["r"], "a3"⟩, .accessible [⟨"v.mp4", true⟩, ⟨"s.srt", true⟩],
          .exits 1 "" "bad"⟩] : List FolderSpec).countP folderSucceeds) ∧
        ∀ i, i < ([⟨⟨["r"], "a1"⟩, .accessible [⟨"v.mp4", true⟩, ⟨"s.srt", true⟩], .exits 0 "" ""⟩,
        ⟨⟨["r"], "a2"⟩, .inaccessible (.notFound "gone"), .exits 0 "" ""⟩,
        ⟨⟨["r"], "a3"⟩, .accessible [⟨"v.mp4", true⟩, ⟨"s.srt", true⟩],
          .exits 1 "" "bad"⟩] : List FolderSpec).length →
          ∃ mid term,
            segs.getD i [] =
                .progress (i + 1) ([⟨⟨["r"], "a1"⟩, .accessible [⟨"v.mp4", true⟩, ⟨"s.srt", true⟩], .exits 0 "" ""⟩,
        ⟨⟨["r"], "a2"⟩, .inaccessible (.notFound "gone"), .exits 0 "" ""⟩,
        ⟨⟨["r"], "a3"⟩, .accessible [⟨"v.mp4", true⟩, ⟨"s.srt", true⟩],
          .exits 1 "" "bad"⟩] : List FolderSpec).length
                    (([⟨⟨["r"], "a1"⟩, .accessible [⟨"v.mp4", true⟩, ⟨"s.srt", true⟩], .exits 0 "" ""⟩,
        ⟨⟨["r"], "a2"⟩, .inaccessible (.notFound "gone"), .exits 0 "" ""⟩,
        ⟨⟨["r"], "a3"⟩, .accessible [⟨"v.mp4", true⟩, ⟨"s.srt", true⟩],
          .exits 1 "" "bad"⟩] : List FolderSpec).getD i default).path.name ::
                  .logMsg (analyzingText (i + 1) ([⟨⟨["r"], "a1"⟩, .accessible [⟨"v.mp4", true⟩, ⟨"s.srt", true⟩], .exits 0 "" ""⟩,
        ⟨⟨["r"], "a2"⟩, .inaccessible (.notFound "gone"), .exits 0 "" ""⟩,
        ⟨⟨["r"], "a3"⟩, .accessible [⟨"v.mp4", true⟩, ⟨"s.srt", true⟩],
          .exits 1 "" "bad"⟩] : List FolderSpec).length
                    (([⟨⟨["r"], "a1"⟩, .accessible [⟨"v.mp4", true⟩, ⟨"s.srt", true⟩], .exits 0 "" ""⟩,
        ⟨⟨["r"], "a2"⟩, .inaccessible (.notFound "gone"), .exits 0 "" ""⟩,
        ⟨⟨["r"], "a3"⟩, .accessible [⟨"v.mp4", true⟩, ⟨"s.srt", true⟩],
          .exits 1 "" "bad"⟩] : List FolderSpec).getD i default).path) ::
                  (mid ++ [term]) ∧
            (mid = [] ∨ ∃ v k, mid = [.logMsg (videoText v), .logMsg (subsCountText k)]) ∧
            (term = .logMsg noVideoText ∨ term = .logMsg noSubsText ∨
             (∃ out, term = .logMsg (successText out)) ∨
             (∃ e, term = .logMsg (failText e)))) ∧
      (∃ segs : List (List Event),
        segs.length = ([⟨⟨["r"], "a1"⟩, .accessible [⟨"v.mp4", true⟩, ⟨"s.srt", true⟩], .exits 0 "" ""⟩,
        ⟨⟨["r"], "a2"⟩, .inaccessible (.notFound "gone"), .exits 0 "" ""⟩,
        ⟨⟨["r"], "a3"⟩, .accessible [⟨"v.mp4", true⟩, ⟨"s.srt", true⟩],
          .exits 1 "" "bad"⟩] : List FolderSpec).length ∧
        (runThreadV3 ([⟨⟨["r"], "a1"⟩, .accessible [⟨"v.mp4", true⟩, ⟨"s.srt", true⟩], .exits 0 "" ""⟩,
        ⟨⟨["r"], "a2"⟩, .inaccessible (.notFound "gone"), .exits 0 "" ""⟩,
        ⟨⟨["r"], "a3"⟩, .accessible [⟨"v.mp4", true⟩, ⟨"s.srt", true⟩],
          .exits 1 "" "bad"⟩] : List FolderSpec)).1 =
            segs.flatten ++
              [.summary (([⟨⟨["r"], "a1"⟩, .accessible [⟨"v.mp4", true⟩, ⟨"s.srt", true⟩], .exits 0 "" ""⟩,
        ⟨⟨["r"], "a2"⟩, .inaccessible (.notFound "gone"), .exits 0 "" ""⟩,
        ⟨⟨["r"], "a3"⟩, .accessible [⟨"v.mp4", true⟩, ⟨"s.srt", true⟩],
          .exits 1 "" "bad"⟩] : List FolderSpec).countP folderSucceedsV3)
                  ([⟨⟨["r"], "a1"⟩, .accessible [⟨"v.mp4", true⟩, ⟨"s.srt", true⟩], .exits 0 "" ""⟩,
        ⟨⟨["r"], "a2"⟩, .inaccessible (.notFound "gone"), .exits 0 "" ""⟩,
        ⟨⟨["r"], "a3"⟩, .accessible [⟨"v.mp4", true⟩, ⟨"s.srt", true⟩],
          .exits 1 "" "bad"⟩] : List FolderSpec).length] ∧
        (runThreadV3 ([⟨⟨["r"], "a1"⟩, .accessible [⟨"v.mp4", true⟩, ⟨"s.srt", true⟩], .exits 0 "" ""⟩,
        ⟨⟨["r"], "a2"⟩, .inaccessible (.notFound "gone"), .exits 0 "" ""⟩,
        ⟨⟨["r"], "a3"⟩, .accessible [⟨"v.mp4", true⟩, ⟨"s.srt", true⟩],
          .exits 1 "" "bad"⟩] : List FolderSpec)).2.2 =
            ([⟨⟨["r"], "a1"⟩, .accessible [⟨"v.mp4", true⟩, ⟨"s.srt", true⟩], .exits 0 "" ""⟩,
        ⟨⟨["r"], "a2"⟩, .inaccessible (.notFound "gone"), .exits 0 "" ""⟩,
        ⟨⟨["r"], "a3"⟩, .accessible [⟨"v.mp4", true⟩, ⟨"s.srt", true⟩],
          .exits 1 "" "bad"⟩] : List FolderSpec).countP folderSucceedsV3 ∧
        ∀ i, i < ([⟨⟨["r"], "a1"⟩, .accessible [⟨"v.mp4", true⟩, ⟨"s.srt", true⟩], .exits 0 "" ""⟩,
        ⟨⟨["r"], "a2"⟩, .inaccessible (.notFound "gone"), .exits 0 "" ""⟩,
        ⟨⟨["r"], "a3"⟩, .accessible [⟨"v.mp4", true⟩, ⟨"s.srt", true⟩],
          .exits 1 "" "bad"⟩] : List FolderSpec).length →
          ∃ term,
            segs.getD i [] =
                [.progress (i + 1) ([⟨⟨["r"], "a1"⟩, .accessible [⟨"v.mp4", true⟩, ⟨"s.srt", true⟩], .exits 0 "" ""⟩,
        ⟨⟨["r"], "a2"⟩, .inaccessible (.notFound "gone"), .exits 0 "" ""⟩,
        ⟨⟨["r"], "a3"⟩, .accessible [⟨"v.mp4", true⟩, ⟨"s.srt", true⟩],
          .exits 1 "" "bad"⟩] : List FolderSpec).length
                    (([⟨⟨["r"], "a1"⟩, .accessible [⟨"v.mp4", true⟩, ⟨"s.srt", true⟩], .exits 0 "" ""⟩,
        ⟨⟨["r"], "a2"⟩, .inaccessible (.notFound "gone"), .exits 0 "" ""⟩,
        ⟨⟨["r"], "a3"⟩, .accessible [⟨"v.mp4", true⟩, ⟨"s.srt", true⟩],
          .exits 1 "" "bad"⟩] : List FolderSpec).getD i default).path.name,
                 .logMsg (analyzingTextV3 (([⟨⟨["r"], "a1"⟩, .accessible [⟨"v.mp4", true⟩, ⟨"s.srt", true⟩], .exits 0 "" ""⟩,
        ⟨⟨["r"], "a2"⟩, .inaccessible (.notFound "gone"), .exits 0 "" ""⟩,
        ⟨⟨["r"], "a3"⟩, .accessible [⟨"v.mp4", true⟩, ⟨"s.srt", true⟩],
          .exits 1 "" "bad"⟩] : List FolderSpec).getD i default).path),
                 term] ∧
            (term = .logMsg skipTextV3 ∨
             (∃ out, term = .logMsg (successTextV3 out)) ∨
             (∃ e, term = .logMsg (failTextV3 e))))) :=
  ⟨by decide,
   (C7_amended [⟨⟨["r"], "a1"⟩, .accessible [⟨"v.mp4", true⟩, ⟨"s.srt", true⟩], .exits 0 "" ""⟩,
        ⟨⟨["r"], "a2"⟩, .inaccessible (.notFound "gone"), .exits 0 "" ""⟩,
        ⟨⟨["r"], "a3"⟩, .accessible [⟨"v.mp4", true⟩, ⟨"s.srt", true⟩],
          .exits 1 "" "bad"⟩]).1 (by decide),
   (C7_amended [⟨⟨["r"], "a1"⟩, .accessible [⟨"v.mp4", true⟩, ⟨"s.srt", true⟩], .exits 0 "" ""⟩,
        ⟨⟨["r"], "a2"⟩, .inaccessible (.notFound "gone"), .exits 0 "" ""⟩,
        ⟨⟨["r"], "a3"⟩, .accessible [⟨"v.mp4", true⟩, ⟨"s.srt", true⟩],
          .exits 1 "" "bad"⟩]).2⟩
